import Mathlib

/-!
Verification of terraform-provider-mongodb: identifier codec, connection resolver and principal reconcilers

A shallow embedding of `src/mongodb/*.go`.

* Go strings are byte sequences: `GoString = List (Fin 256)`.
* `encoding/base64` (`StdEncoding`) and `strings.SplitN` are Go standard
  library functions used by the identifier codec; they are embedded here
  following the standard library's code.
* The cluster is an explicit state: a `Client` carries the list of commands
  issued so far, the function that yields the cluster's reply, and whether its
  connection is open.
-/

namespace Mongodb

/-! ## Strings -/

/-- One byte of a Go string. -/
abbrev Byte := Fin 256

/-- A Go `string`: an arbitrary sequence of bytes. -/
abbrev GoString := List Byte

/-- The bytes of an ASCII string literal of the source. -/
def lit (s : String) : GoString := s.toList.map (fun c => Fin.ofNat c.toNat)

/-- Byte `'.'`. -/
def dot : Byte := 46
/-- Byte `'='`, the padding character of `StdEncoding`. -/
def padChar : Byte := 61
/-- Byte `'\n'`. -/
def newline : Byte := 10
/-- Byte `'\r'`. -/
def carriage : Byte := 13

/-! ## Errors -/

/-- Go `error` values, kept structured: `errorfS pre s post` is
`fmt.Errorf(pre + "%s" + post, s)` for a string operand, `errorfE` the same
for an error operand.  `corruptInput` is `base64.CorruptInputError` (the byte
offset it carries is not tracked). -/
inductive GoError where
  | new (msg : GoString)
  | corruptInput
  | errorfS (pre : GoString) (s : GoString) (post : GoString)
  | errorfE (pre : GoString) (e : GoError) (post : GoString)
  deriving DecidableEq, Repr

deriving instance DecidableEq for Except

/-! ## `encoding/base64`, `StdEncoding` -/

/-- The alphabet of `StdEncoding`:
`ABCDEFGHIJKLMNOPQRSTUVWXYZabcdefghijklmnopqrstuvwxyz0123456789+/`. -/
def encodeStd : List Byte :=
  [65, 66, 67, 68, 69, 70, 71, 72, 73, 74, 75, 76, 77, 78, 79, 80, 81, 82, 83, 84, 85, 86, 87, 88,
   89, 90, 97, 98, 99, 100, 101, 102, 103, 104, 105, 106, 107, 108, 109, 110, 111, 112, 113, 114,
   115, 116, 117, 118, 119, 120, 121, 122, 48, 49, 50, 51, 52, 53, 54, 55, 56, 57, 43, 47]

/-- Table lookup `enc.encode[i]` (indices are always masked with `0x3F`). -/
def encChar (i : Nat) : Byte := encodeStd.getD i 0

/-- Table `enc.decodeMap`: the index of the byte in the alphabet, `0xff` for a
byte outside it. -/
def decodeMap (c : Byte) : Nat :=
  let i := encodeStd.indexOf c
  if i < 64 then i else 0xff

/-- Function `Encoding.Encode` with padding: full 3-byte groups, then the remaining
small block of one or two bytes. -/
def Encode : List Byte → List Byte
  | a :: b :: c :: rest =>
    let val := (a.val <<< 16) ||| (b.val <<< 8) ||| c.val
    encChar (val >>> 18 &&& 0x3F) :: encChar (val >>> 12 &&& 0x3F) ::
      encChar (val >>> 6 &&& 0x3F) :: encChar (val &&& 0x3F) :: Encode rest
  | [a, b] =>
    let val := (a.val <<< 16) ||| (b.val <<< 8)
    [encChar (val >>> 18 &&& 0x3F), encChar (val >>> 12 &&& 0x3F),
     encChar (val >>> 6 &&& 0x3F), padChar]
  | [a] =>
    let val := a.val <<< 16
    [encChar (val >>> 18 &&& 0x3F), encChar (val >>> 12 &&& 0x3F), padChar, padChar]
  | [] => []

/-- Function `Encoding.EncodeToString`. -/
def EncodeToString (src : List Byte) : GoString := Encode src

/-- Skips `'\n'` and `'\r'` (the inner `for` loops of `decodeQuantum`). -/
def skipNewlines : List Byte → List Byte
  | [] => []
  | c :: rest => if c = newline ∨ c = carriage then skipNewlines rest else c :: rest

/-- Result of one `decodeQuantum` call: the unread input, the bytes written
and the error. -/
structure Quantum where
  rest : List Byte
  out : List Byte
  err : Option GoError
  deriving DecidableEq, Repr

/-- The tail of `decodeQuantum`: converts the sextets `dbuf` (zero-filled up
to four) into `dlen - 1` bytes.  `StdEncoding` is not strict, so the unused
low bits are not checked. -/
def quantumBytes (dbuf : List Nat) (dlen : Nat) : List Byte :=
  let val := (dbuf.getD 0 0 <<< 18) ||| (dbuf.getD 1 0 <<< 12) ||| (dbuf.getD 2 0 <<< 6)
    ||| dbuf.getD 3 0
  let b0 : Byte := Fin.ofNat (val >>> 16)
  let b1 : Byte := Fin.ofNat (val >>> 8)
  let b2 : Byte := Fin.ofNat (val >>> 0)
  match dlen with
  | 4 => [b0, b1, b2]
  | 3 => [b0, b1]
  | 2 => [b0]
  | _ => []

/-- The padding branch of `decodeQuantum`: a `'='` was read (and consumed)
after `j = dbuf.length` sextets, `rest` is the input after it. -/
def quantumPadding (dbuf : List Nat) (rest : List Byte) : Quantum :=
  match dbuf.length with
  | 0 | 1 => ⟨rest, [], some .corruptInput⟩
  | 2 =>
    match skipNewlines rest with
    | [] => ⟨[], [], some .corruptInput⟩
    | c2 :: rest2 =>
      if c2 ≠ padChar then ⟨c2 :: rest2, [], some .corruptInput⟩
      else
        let rest3 := skipNewlines rest2
        ⟨rest3, quantumBytes dbuf 2, if rest3 ≠ [] then some .corruptInput else none⟩
  | _ =>
    let rest3 := skipNewlines rest
    ⟨rest3, quantumBytes dbuf dbuf.length, if rest3 ≠ [] then some .corruptInput else none⟩

/-- The `for j` loop of `decodeQuantum`: `dbuf` holds the `j` sextets read so
far, `src` is the input from `si` on. -/
def quantumLoop (dbuf : List Nat) : List Byte → Quantum
  | [] =>
    if dbuf.length = 4 then ⟨[], quantumBytes dbuf 4, none⟩
    else if dbuf.length = 0 then ⟨[], [], none⟩
    else ⟨[], [], some .corruptInput⟩
  | c :: rest =>
    if dbuf.length = 4 then ⟨c :: rest, quantumBytes dbuf 4, none⟩
    else
      let out := decodeMap c
      if out ≠ 0xff then quantumLoop (dbuf ++ [out]) rest
      else if c = newline ∨ c = carriage then quantumLoop dbuf rest
      else if c ≠ padChar then ⟨rest, [], some .corruptInput⟩
      else quantumPadding dbuf rest

/-- Function `decodeQuantum`, started with an empty `dbuf`. -/
def decodeQuantum (src : List Byte) : Quantum := quantumLoop [] src

/-- The loop `for si < len(src)` of `Encoding.Decode`; every quantum consumes
at least one byte, so `fuel = len(src)` iterations are enough. -/
def decodeLoop : Nat → List Byte → Except GoError (List Byte)
  | _, [] => .ok []
  | 0, _ :: _ => .error .corruptInput
  | fuel + 1, c :: rest =>
    let q := decodeQuantum (c :: rest)
    match q.err with
    | some e => .error e
    | none =>
      match decodeLoop fuel q.rest with
      | .ok tail => .ok (q.out ++ tail)
      | .error e => .error e

/-- Function `Encoding.DecodeString`. -/
def DecodeString (s : GoString) : Except GoError (List Byte) := decodeLoop s.length s

/-! ## `strings.SplitN` -/

/-- Function `strings.Index(s, sep)` for a one-byte separator: the index of its first
occurrence, `-1` when there is none. -/
def Index (s : GoString) (sep : Byte) : Int :=
  if s.indexOf sep < s.length then (s.indexOf sep : Int) else -1

/-- Function `strings.Count(s, sep)` for a one-byte separator. -/
def Count (s : GoString) (sep : Byte) : Nat := s.count sep

/-- The loop `for i < n` of `genSplit` (with `n` already decremented): cuts at
most `n` times, the last element is the unsplit remainder. -/
def genSplitLoop (sep : Byte) : Nat → GoString → List GoString
  | 0, s => [s]
  | n + 1, s =>
    let m := Index s sep
    if m < 0 then [s]
    else s.take m.toNat :: genSplitLoop sep n (s.drop (m.toNat + 1))

/-- Function `strings.SplitN(s, sep, n)` for a one-byte separator (`genSplit` with
`sepSave = 0`). -/
def SplitN (s : GoString) (sep : Byte) (n : Int) : List GoString :=
  if n = 0 then []
  else
    let n : Nat := if n < 0 then Count s sep + 1 else n.toNat
    let n : Nat := if n > s.length + 1 then s.length + 1 else n
    genSplitLoop sep (n - 1) s

/-! ## `resource_db_user.go`, `resource_db_role.go`: the identifier codec -/

/-- Function `makeUserId(userName, database)`. -/
def makeUserId (userName : GoString) (database : GoString) : GoString :=
  let str := database ++ lit "." ++ userName
  EncodeToString str

/-- Function `parseUserId(id)`: the pair `(userName, database)` or the error. -/
def parseUserId (id : GoString) : Except GoError (GoString × GoString) :=
  match DecodeString id with
  | .error errEncoding =>
    .error (.errorfE (lit "unexpected format of ID Error : ") errEncoding [])
  | .ok result =>
    let parts := SplitN result dot 2
    if parts.length ≠ 2 ∨ parts.getD 0 [] = [] ∨ parts.getD 1 [] = [] then
      .error (.errorfS (lit "unexpected format of ID (") id (lit "), expected db.username"))
    else
      let database := parts.getD 0 []
      let userName := parts.getD 1 []
      .ok (userName, database)

/-- Function `makeRoleId(role, database)`. -/
def makeRoleId (role : GoString) (database : GoString) : GoString :=
  let str := database ++ lit "." ++ role
  EncodeToString str

/-- Function `parseRoleId(id)`: the pair `(roleName, database)` or the error. -/
def parseRoleId (id : GoString) : Except GoError (GoString × GoString) :=
  match DecodeString id with
  | .error errEncoding =>
    .error (.errorfE (lit "unexpected format of ID Error : ") errEncoding [])
  | .ok result =>
    let parts := SplitN result dot 2
    if parts.length ≠ 2 ∨ parts.getD 0 [] = [] ∨ parts.getD 1 [] = [] then
      .error (.errorfS (lit "unexpected format of ID (") id (lit "), expected database.roleName"))
    else
      let database := parts.getD 0 []
      let roleName := parts.getD 1 []
      .ok (roleName, database)

/-- The shape an id must have to decode to `(name, database)`: valid base64
whose plaintext is `database`, the first `"."`, then `name`, both parts
non-empty. -/
def IdShape (id : GoString) (name : GoString) (database : GoString) : Prop :=
  DecodeString id = .ok (database ++ dot :: name) ∧ dot ∉ database ∧ database ≠ [] ∧ name ≠ []

instance (id name database : GoString) : Decidable (IdShape id name database) := by
  unfold IdShape; infer_instance

/-! ## `client.go` -/

/-- Struct `ClientConfig`. -/
structure ClientConfig where
  Host : GoString
  Port : GoString
  AuthSchema : GoString
  Username : GoString
  Password : GoString
  AuthX509Cert : GoString
  AuthX509Key : GoString
  DB : GoString
  Ssl : Bool
  InsecureSkipVerify : Bool
  ReplicaSet : GoString
  RetryWrites : Bool
  Certificate : GoString
  Direct : Bool
  Proxy : GoString
  deriving DecidableEq, Repr

/-- Function `addArgs(arguments, newArg)`. -/
def addArgs (arguments : GoString) (newArg : GoString) : GoString :=
  if arguments ≠ [] then arguments ++ lit "&" ++ newArg
  else lit "/?" ++ newArg

/-- Function `strconv.FormatBool`. -/
def FormatBool (b : Bool) : GoString := if b then lit "true" else lit "false"

/-- The variable `arguments` of `ClientConfig.MongoClient` when the URI is
assembled. -/
def mongoClientArguments (c : ClientConfig) : GoString :=
  let arguments : GoString := []
  let arguments := addArgs arguments (lit "retrywrites=" ++ FormatBool c.RetryWrites)
  let arguments := if c.Ssl then addArgs arguments (lit "ssl=true") else arguments
  let arguments :=
    if c.ReplicaSet ≠ [] ∧ c.Direct = false then
      addArgs arguments (lit "replicaSet=" ++ c.ReplicaSet)
    else arguments
  let arguments :=
    if c.Direct then addArgs arguments (lit "connect=" ++ lit "direct") else arguments
  arguments

/-- The variable `uri` of `ClientConfig.MongoClient`, the URI handed to
`ApplyURI`. -/
def mongoClientURI (c : ClientConfig) : GoString :=
  lit "mongodb://" ++ c.Host ++ lit ":" ++ c.Port ++ mongoClientArguments c

/-- The fields of `options.Credential` that `getClientAuth` sets (the others
keep their zero value). -/
structure Credential where
  AuthMechanism : GoString
  AuthSource : GoString
  Username : GoString
  Password : GoString
  deriving DecidableEq, Repr

/-- Function `ClientConfig.getClientAuth`. -/
def getClientAuth (c : ClientConfig) : Except GoError Credential :=
  if c.AuthSchema = lit "PLAIN" then
    if c.Username = [] ∨ c.Password = [] then
      .error (.new (lit "The PLAIN auth schema requires user and password to be provided"))
    else
      .ok { AuthMechanism := [], AuthSource := c.DB, Username := c.Username,
            Password := c.Password }
  else if c.AuthSchema = lit "MONGODB-X509" then
    if c.DB ≠ lit "$external" then
      .error (.errorfS
        (lit "The MONGODB-X509 auth schema requires the $external auth database, can't use ")
        c.DB [])
    else
      .ok { AuthMechanism := lit "MONGODB-X509", AuthSource := lit "$external",
            Username := [], Password := [] }
  else
    .error (.errorfS (lit "Unknown auth schema: ") c.AuthSchema
      (lit ", should be PLAIN or MONGODB-X509"))

/-! ### Reading a URI back -/

/-- The query of a URI: the text after its first `'?'`. -/
def uriQuery (uri : GoString) : GoString := (uri.dropWhile (fun b => b ≠ 63)).drop 1

/-- The fields of a string separated by `sep`. -/
def fields (sep : Byte) : GoString → List GoString
  | [] => [[]]
  | b :: rest =>
    if b = sep then [] :: fields sep rest
    else
      match fields sep rest with
      | [] => [[b]]
      | f :: fs => (b :: f) :: fs

/-- The query parameters of a URI: the `'&'`-separated fields of its query. -/
def queryParams (uri : GoString) : List GoString := fields 38 (uriQuery uri)

/-- Whether `p` is a prefix of `s` (`strings.HasPrefix`). -/
def hasPrefix (s : GoString) (p : GoString) : Bool := p.isPrefixOf s

/-- The query parameters that `MongoClient` means to emit for `c`, in order. -/
def intendedParams (c : ClientConfig) : List GoString :=
  [lit "retrywrites=" ++ FormatBool c.RetryWrites]
    ++ (if c.Ssl then [lit "ssl=true"] else [])
    ++ (if c.ReplicaSet ≠ [] ∧ c.Direct = false then [lit "replicaSet=" ++ c.ReplicaSet] else [])
    ++ (if c.Direct then [lit "connect=direct"] else [])

/-- A configuration whose replica-set name carries a `'&'`. -/
def ampersandConfig : ClientConfig :=
  { Host := lit "localhost", Port := lit "27017", AuthSchema := lit "PLAIN",
    Username := lit "root", Password := lit "secret", AuthX509Cert := [], AuthX509Key := [],
    DB := lit "admin", Ssl := false, InsecureSkipVerify := false,
    ReplicaSet := lit "rs0&ssl=true", RetryWrites := true, Certificate := [], Direct := false,
    Proxy := [] }

/-- A configuration with a replica set and direct connection both set. -/
def directConfig : ClientConfig :=
  { Host := lit "localhost", Port := lit "27017", AuthSchema := lit "PLAIN",
    Username := lit "root", Password := lit "secret", AuthX509Cert := [], AuthX509Key := [],
    DB := lit "admin", Ssl := false, InsecureSkipVerify := false,
    ReplicaSet := lit "rs0", RetryWrites := true, Certificate := [], Direct := true,
    Proxy := [] }

/-! ## `models.go` -/

/-- Struct `RoleReference`. -/
structure RoleReference where
  Role : GoString
  Db : GoString
  deriving DecidableEq, Repr

/-- Struct `Privilege`. -/
structure Privilege where
  Db : GoString
  Collection : GoString
  Actions : List GoString
  deriving DecidableEq, Repr

/-- Struct `User`. -/
structure User where
  AuthDatabase : GoString
  Name : GoString
  Password : GoString
  Roles : List RoleReference
  deriving DecidableEq, Repr

/-- Struct `Role`. -/
structure Role where
  Name : GoString
  Database : GoString
  Roles : List RoleReference
  Privileges : List Privilege
  deriving DecidableEq, Repr

/-! ## `mongodb.go` -/

/-- Struct `MongodbResource`. -/
structure MongodbResource where
  Db : GoString
  Collection : GoString
  deriving DecidableEq, Repr

/-- Struct `MongodbPrivilege`. -/
structure MongodbPrivilege where
  Resource : MongodbResource
  Actions : List GoString
  deriving DecidableEq, Repr

/-- Struct `MongodbRoleReference`. -/
structure MongodbRoleReference where
  Role : GoString
  Db : GoString
  deriving DecidableEq, Repr

/-- Struct `MongodbUser`. -/
structure MongodbUser where
  Id : GoString
  User : GoString
  Db : GoString
  Roles : List MongodbRoleReference
  deriving DecidableEq, Repr

/-- Struct `MongodbUsersResult`. -/
structure MongodbUsersResult where
  Users : List MongodbUser
  deriving DecidableEq, Repr

/-- Struct `MongodbRole`. -/
structure MongodbRole where
  Role : GoString
  Db : GoString
  InheritedRoles : List MongodbRoleReference
  Privileges : List MongodbPrivilege
  deriving DecidableEq, Repr

/-- Struct `MongodbRolesResult`. -/
structure MongodbRolesResult where
  Roles : List MongodbRole
  deriving DecidableEq, Repr

/-- The values the source puts into a command document: a string, a bool, a
nested `bson.D` of string fields, a `[]RoleReference`, a `[]MongodbPrivilege`,
and the explicit empty list `[]bson.M{}`. -/
inductive BsonValue where
  | str (s : GoString)
  | bool (b : Bool)
  | doc (fields : List (GoString × GoString))
  | roleRefs (roles : List RoleReference)
  | privileges (privs : List MongodbPrivilege)
  | emptyList
  deriving DecidableEq, Repr

/-- A command `bson.D`: the ordered sequence of `{Key, Value}` elements. -/
abbrev Command := List (GoString × BsonValue)

/-- One `RunCommand` call: the database it is run against and the command. -/
structure Issued where
  database : GoString
  command : Command
  deriving DecidableEq, Repr

/-- A reply document of the cluster, given by what `SingleResult.Decode` makes
of it for each of the two result types the source decodes into. -/
structure Reply where
  asUsers : Except GoError MongodbUsersResult
  asRoles : Except GoError MongodbRolesResult

/-- The driver's `*mongo.SingleResult`: an error, or a reply document. -/
inductive SingleResult where
  | failed (err : GoError)
  | reply (r : Reply)

/-- Function `SingleResult.Err()`. -/
def SingleResult.Err : SingleResult → Option GoError
  | .failed e => some e
  | .reply _ => none

/-- Function `SingleResult.Decode(&decodedResult)` for a `MongodbUsersResult`: the
result's own error if it has one. -/
def SingleResult.DecodeUsers : SingleResult → Except GoError MongodbUsersResult
  | .failed e => .error e
  | .reply r => r.asUsers

/-- Function `SingleResult.Decode(&decodedResult)` for a `MongodbRolesResult`. -/
def SingleResult.DecodeRoles : SingleResult → Except GoError MongodbRolesResult
  | .failed e => .error e
  | .reply r => r.asRoles

/-- The `*mongo.Client` together with the cluster behind it: the commands
issued so far, the cluster's answer to a command given the commands that came
before it, and whether the client's connection is open (`Connect` opens it,
`Disconnect` closes it; a client written without this field is a connected
one). -/
structure Client where
  issued : List Issued
  cluster : List Issued → Issued → SingleResult
  connected : Bool := true

/-- Function `client.Database(database).RunCommand(ctx, command)`: the result, and the
client with the command recorded. -/
def Client.RunCommand (client : Client) (database : GoString) (command : Command) :
    SingleResult × Client :=
  (client.cluster client.issued ⟨database, command⟩,
   { client with issued := client.issued ++ [⟨database, command⟩] })

/-- Function `client.Connect(ctx)` of the driver, `err` being the outcome the
deployment gives it: on success the connection is open. -/
def Client.Connect (client : Client) (err : Option GoError) : Option GoError × Client :=
  match err with
  | some e => (some e, client)
  | none => (none, { client with connected := true })

/-- Function `client.Disconnect(ctx)` of the driver: the connection is closed. -/
def Client.Disconnect (client : Client) : Client :=
  { client with connected := false }

/-- The command document that `createUser` builds. -/
def createUserCommand (user : User) : Command :=
  let rolesValue : BsonValue := .emptyList
  let rolesValue := if user.Roles.length ≠ 0 then .roleRefs user.Roles else rolesValue
  let command : Command :=
    [(lit "createUser", .str user.Name), (lit "roles", rolesValue)]
  let command : Command :=
    if user.Password ≠ [] then
      [(lit "createUser", .str user.Name), (lit "pwd", .str user.Password),
       (lit "roles", rolesValue)]
    else command
  command

/-- Function `createUser(client, user)`. -/
def createUser (client : Client) (user : User) : Option GoError × Client :=
  let (result, client) := client.RunCommand user.AuthDatabase (createUserCommand user)
  if result.Err ≠ none then (result.Err, client) else (none, client)

/-- The command document that `getUser` builds. -/
def usersInfoCommand (username : GoString) (database : GoString) : Command :=
  [(lit "usersInfo", .doc [(lit "user", username), (lit "db", database)])]

/-- Function `getUser(client, username, database, password)`; `.ok none` is the return
`nil, nil`. -/
def getUser (client : Client) (username : GoString) (database : GoString)
    (password : GoString) : Except GoError (Option User) × Client :=
  let (result, client) := client.RunCommand database (usersInfoCommand username database)
  match result.DecodeUsers with
  | .error err => (.error err, client)
  | .ok decodedResult =>
    match decodedResult.Users with
    | [] => (.ok none, client)
    | mongodbUser :: _ =>
      let roles := mongodbUser.Roles.map (fun r => ({ Role := r.Role, Db := r.Db } : RoleReference))
      let user : User :=
        { AuthDatabase := database, Name := username, Password := password, Roles := roles }
      (.ok (some user), client)

/-- Function `dropUser(client, username, database)`. -/
def dropUser (client : Client) (username : GoString) (database : GoString) :
    Option GoError × Client :=
  let (result, client) := client.RunCommand database [(lit "dropUser", .str username)]
  if result.Err ≠ none then (result.Err, client) else (none, client)

/-- The command document that `getRole` builds. -/
def rolesInfoCommand (roleName : GoString) (database : GoString) : Command :=
  [(lit "rolesInfo", .doc [(lit "role", roleName), (lit "db", database)]),
   (lit "showPrivileges", .bool true)]

/-- Function `getRole(client, roleName, database)`; `.ok none` is the return `nil, nil`. -/
def getRole (client : Client) (roleName : GoString) (database : GoString) :
    Except GoError (Option Role) × Client :=
  let (result, client) := client.RunCommand database (rolesInfoCommand roleName database)
  match result.DecodeRoles with
  | .error err => (.error err, client)
  | .ok decodedResult =>
    match decodedResult.Roles with
    | [] => (.ok none, client)
    | mongodbRole :: _ =>
      let roles :=
        mongodbRole.InheritedRoles.map (fun r => ({ Role := r.Role, Db := r.Db } : RoleReference))
      let privileges := mongodbRole.Privileges.map (fun p =>
        ({ Collection := p.Resource.Collection, Db := p.Resource.Db, Actions := p.Actions }
          : Privilege))
      let role : Role :=
        { Name := mongodbRole.Role, Database := mongodbRole.Db, Roles := roles,
          Privileges := privileges }
      (.ok (some role), client)

/-- The slice `privilegesData` that `createRole` builds. -/
def privilegesData (role : Role) : List MongodbPrivilege :=
  role.Privileges.map (fun element =>
    { Resource := { Db := element.Db, Collection := element.Collection },
      Actions := element.Actions })

/-- The command document that `createRole` builds. -/
def createRoleCommand (role : Role) : Command :=
  let privilegesValue : BsonValue := .emptyList
  let privilegesValue :=
    if (privilegesData role).length ≠ 0 then .privileges (privilegesData role)
    else privilegesValue
  let rolesValue : BsonValue := .emptyList
  let rolesValue := if role.Roles.length ≠ 0 then .roleRefs role.Roles else rolesValue
  [(lit "createRole", .str role.Name), (lit "privileges", privilegesValue),
   (lit "roles", rolesValue)]

/-- Function `createRole(client, role)`. -/
def createRole (client : Client) (role : Role) : Option GoError × Client :=
  let (result, client) := client.RunCommand role.Database (createRoleCommand role)
  if result.Err ≠ none then (result.Err, client) else (none, client)

/-- Function `dropRole(client, role, database)`. -/
def dropRole (client : Client) (role : GoString) (database : GoString) :
    Option GoError × Client :=
  let (result, client) := client.RunCommand database [(lit "dropRole", .str role)]
  if result.Err ≠ none then (result.Err, client) else (none, client)

/-! ## `resource_db_user.go` -/

/-- Function `diag.Errorf(pre + "%s" + post, err)`: the diagnostics carrying `err`. -/
def diagErrorf (pre : GoString) (err : GoError) (post : GoString) : Option GoError :=
  some (.errorfE pre err post)

/-- What the user resource reads from and writes to `*schema.ResourceData`:
the stored id `data.State().ID`, the id set by `SetId`, the attributes, the
outcome of `mapstructure.Decode` on the `role` set, and the error (if any)
that `data.Set` reports for a key. -/
structure UserData where
  stateID : GoString
  id : GoString
  name : GoString
  auth_database : GoString
  password : GoString
  role : Except GoError (List RoleReference)
  setErr : GoString → Option GoError

/-- Function `readUserFromData(data)`. -/
def readUserFromData (data : UserData) : Except GoError User :=
  let userName := data.name
  let database := data.auth_database
  let password := data.password
  match data.role with
  | .error roleMapErr => .error roleMapErr
  | .ok roles =>
    if password = [] ∧ database ≠ lit "$external" then
      .error (.errorfS (lit ("users without password allowed only for X509 certificate users "
        ++ "that have to be in the $external database, but database ")) database
        (lit " was specified"))
    else
      .ok { AuthDatabase := database, Name := userName, Password := password, Roles := roles }

/-- Function `writeUserToData(data, user)`; `user = none` is the nil pointer. -/
def writeUserToData (data : UserData) (user : Option User) : Option GoError × UserData :=
  match user with
  | none => (none, { data with id := [] })
  | some user =>
    match data.setErr (lit "role") with
    | some err => (some err, data)
    | none =>
      let data := { data with role := .ok user.Roles }
      match data.setErr (lit "auth_database") with
      | some err => (some err, data)
      | none =>
        let data := { data with auth_database := user.AuthDatabase }
        match data.setErr (lit "password") with
        | some err => (some err, data)
        | none =>
          let data := { data with password := user.Password }
          (none, { data with id := makeUserId user.Name user.AuthDatabase })

/-- What a user resource operation leaves behind: the diagnostics it returns
(`none` is `nil`), the client it obtained (with the commands it issued), and
the resource data. -/
structure UserRun where
  diags : Option GoError
  client : Option Client
  data : UserData

/-- Function `resourceDatabaseUserUpdate`; `init` is the outcome of
`MongoClientInit(config)`. -/
def resourceDatabaseUserUpdate (init : Except GoError Client) (data : UserData) : UserRun :=
  match init with
  | .error connectionError =>
    ⟨diagErrorf (lit "Error connecting to database : ") connectionError (lit " "), none, data⟩
  | .ok client =>
    match parseUserId data.stateID with
    | .error parseUserIdErr =>
      ⟨diagErrorf (lit "ID mismatch ") parseUserIdErr [], some client, data⟩
    | .ok (userName, database) =>
      match readUserFromData data with
      | .error convertUserErr =>
        ⟨diagErrorf (lit "Error reading user : ") convertUserErr (lit " "), some client, data⟩
      | .ok user =>
        let (deleteUserErr, client) := dropUser client userName database
        match deleteUserErr with
        | some err =>
          ⟨diagErrorf (lit "Could not delete the user : ") err (lit " "), some client, data⟩
        | none =>
          let (createUserErr, client) := createUser client user
          match createUserErr with
          | some err =>
            ⟨diagErrorf (lit "Could not create the user : ") err (lit " "), some client, data⟩
          | none =>
            let (writeUserErr, data) := writeUserToData data (some user)
            match writeUserErr with
            | some err =>
              ⟨diagErrorf (lit "Error writing user : ") err (lit " "), some client, data⟩
            | none => ⟨none, some client, data⟩

/-- Function `resourceDatabaseUserCreate`; `init` is the outcome of
`MongoClientInit(config)`. -/
def resourceDatabaseUserCreate (init : Except GoError Client) (data : UserData) : UserRun :=
  match init with
  | .error connectionError =>
    ⟨diagErrorf (lit "Error connecting to database : ") connectionError (lit " "), none, data⟩
  | .ok client =>
    match readUserFromData data with
    | .error convertUserErr =>
      ⟨diagErrorf (lit "Error reading user : ") convertUserErr (lit " "), some client, data⟩
    | .ok user =>
      let (createUserErr, client) := createUser client user
      match createUserErr with
      | some err =>
        ⟨diagErrorf (lit "Could not create the user : ") err (lit " "), some client, data⟩
      | none =>
        let (writeUserErr, data) := writeUserToData data (some user)
        match writeUserErr with
        | some err =>
          ⟨diagErrorf (lit "Error writing user : ") err (lit " "), some client, data⟩
        | none => ⟨none, some client, data⟩

/-! ## `resource_db_role.go` -/

/-- What the role resource reads from and writes to `*schema.ResourceData`:
the stored id, the id set by `SetId`, the attributes, the outcomes of
`mapstructure.Decode` on the `inherited_role` and `privilege` sets, and the
error (if any) that `data.Set` reports for a key. -/
structure RoleData where
  stateID : GoString
  id : GoString
  name : GoString
  database : GoString
  inherited_role : Except GoError (List RoleReference)
  privilege : Except GoError (List Privilege)
  setErr : GoString → Option GoError

/-- Function `readRoleFromData(data)`. -/
def readRoleFromData (data : RoleData) : Except GoError Role :=
  let roleName := data.name
  let database := data.database
  match data.inherited_role with
  | .error roleMapErr => .error roleMapErr
  | .ok roleList =>
    match data.privilege with
    | .error privMapErr => .error privMapErr
    | .ok privileges =>
      .ok { Name := roleName, Database := database, Roles := roleList, Privileges := privileges }

/-- Function `writeRoleToData(data, role)`; `role = none` is the nil pointer. -/
def writeRoleToData (data : RoleData) (role : Option Role) : Option GoError × RoleData :=
  match role with
  | none => (none, { data with id := [] })
  | some role =>
    match data.setErr (lit "inherited_role") with
    | some err => (some err, data)
    | none =>
      let data := { data with inherited_role := .ok role.Roles }
      match data.setErr (lit "privilege") with
      | some err => (some err, data)
      | none =>
        let data := { data with privilege := .ok role.Privileges }
        match data.setErr (lit "database") with
        | some err => (some err, data)
        | none =>
          let data := { data with database := role.Database }
          match data.setErr (lit "name") with
          | some err => (some err, data)
          | none =>
            let data := { data with name := role.Name }
            (none, { data with id := makeRoleId role.Name role.Database })

/-- What a role resource operation leaves behind: diagnostics, client and
resource data. -/
structure RoleRun where
  diags : Option GoError
  client : Option Client
  data : RoleData

/-- Function `resourceDatabaseRoleUpdate`; `init` is the outcome of
`MongoClientInit(config)`. -/
def resourceDatabaseRoleUpdate (init : Except GoError Client) (data : RoleData) : RoleRun :=
  match init with
  | .error connectionError =>
    ⟨diagErrorf (lit "Error connecting to database : ") connectionError (lit " "), none, data⟩
  | .ok client =>
    match parseRoleId data.stateID with
    | .error parseRoleIdErr => ⟨diagErrorf [] parseRoleIdErr [], some client, data⟩
    | .ok (_, _) =>
      match readRoleFromData data with
      | .error readRoleErr =>
        ⟨diagErrorf (lit "Error reading role : ") readRoleErr (lit " "), some client, data⟩
      | .ok role =>
        let (dropRoleErr, client) := dropRole client role.Name role.Database
        match dropRoleErr with
        | some err =>
          ⟨diagErrorf (lit "Error deleting the role: ") err (lit " "), some client, data⟩
        | none =>
          let (createRoleErr, client) := createRole client role
          match createRoleErr with
          | some err =>
            ⟨diagErrorf (lit "Could not create the role  :  ") err (lit " "), some client, data⟩
          | none =>
            let (writeRoleErr, data) := writeRoleToData data (some role)
            match writeRoleErr with
            | some err =>
              ⟨diagErrorf (lit "Error writing role : ") err (lit " "), some client, data⟩
            | none => ⟨none, some client, data⟩

/-- The commands a run issued on top of those already recorded in the client
it started from (none when no client was obtained). -/
def newCommands (init : Except GoError Client) (final : Option Client) : List Issued :=
  match init, final with
  | .ok c0, some c1 => c1.issued.drop c0.issued.length
  | _, _ => []

/-! ## Concrete clusters and resource data -/

/-- A cluster that accepts every command and replies with empty user and role
lists; no command issued yet. -/
def emptyCluster : Client :=
  { issued := [], cluster := fun _ _ => .reply ⟨.ok ⟨[]⟩, .ok ⟨[]⟩⟩ }

/-- A cluster that knows `alice` with role `readWrite` on `app` (listed
before a second entry); no command issued yet. -/
def aliceCluster : Client :=
  { issued := [],
    cluster := fun _ _ => .reply
      ⟨.ok ⟨[⟨lit "admin.alice", lit "alice", lit "admin", [⟨lit "readWrite", lit "app"⟩]⟩,
             ⟨lit "other.alice", lit "alice", lit "other", []⟩]⟩,
       .ok ⟨[]⟩⟩ }

/-- A cluster that rejects every command with the error `denied`. -/
def failingCluster : Client :=
  { issued := [], cluster := fun _ _ => .failed (.new (lit "denied")) }

/-- Resource data of the user `admin.alice` (stored id `YWRtaW4uYWxpY2U=`)
whose desired state is `alice` with password `pw` and role `readWrite` on
`app`. -/
def aliceData : UserData :=
  { stateID := lit "YWRtaW4uYWxpY2U=", id := lit "YWRtaW4uYWxpY2U=", name := lit "alice",
    auth_database := lit "admin", password := lit "pw",
    role := .ok [⟨lit "readWrite", lit "app"⟩], setErr := fun _ => none }

/-- Resource data of a certificate user in `$external` without password. -/
def externalData : UserData :=
  { stateID := [], id := [], name := lit "CN=client", auth_database := lit "$external",
    password := [], role := .ok [], setErr := fun _ => none }

/-- Resource data of the role stored as `admin.old` (id `YWRtaW4ub2xk`) whose
desired name is now `new`. -/
def renamedRoleData : RoleData :=
  { stateID := lit "YWRtaW4ub2xk", id := lit "YWRtaW4ub2xk", name := lit "new",
    database := lit "admin", inherited_role := .ok [], privilege := .ok [],
    setErr := fun _ => none }

/-! ## `client.go`: TLS material, client assembly and `MongoClientInit` -/

/-- A loaded `tls.Certificate`, given by the certificate and key it was
loaded from. -/
structure Certificate where
  certFile : GoString
  keyFile : GoString
  deriving DecidableEq, Repr

/-- The fields of `tls.Config` that `getTlsConfig` sets: the skip-verify
flag, the root pool (given by the PEM text it was filled from) and the
certificate that `GetClientCertificate` returns on every request. -/
structure TlsConfig where
  InsecureSkipVerify : Bool
  RootCAs : Option GoString
  GetClientCertificate : Option Certificate
  deriving DecidableEq, Repr

/-- The dialer that `proxyDialer` returns: the one from the environment, or
one tunnelling through the given proxy URL. -/
inductive ContextDialer where
  | fromEnvironment
  | fromURL (proxyURL : GoString)
  deriving DecidableEq, Repr

/-- The libraries and the deployment around the provider: the outcomes of
`url.Parse` and `proxy.FromURL` on a proxy string, of
`CertPool.AppendCertsFromPEM` and `tls.LoadX509KeyPair`, of `mongo.NewClient`
on a URI, of `client.Connect` and `client.Ping`, and the cluster's answers to
commands. -/
structure Driver where
  urlParse : GoString → Option GoError
  proxyFromURL : GoString → Option GoError
  appendCertsFromPEM : GoString → Bool
  loadX509KeyPair : GoString → GoString → Except GoError Certificate
  newClient : GoString → Option GoError
  connect : Option GoError
  ping : Option GoError
  cluster : List Issued → Issued → SingleResult

/-- Function `ClientConfig.getTlsConfig`; `.ok none` is the return `nil, nil`. -/
def getTlsConfig (env : Driver) (c : ClientConfig) : Except GoError (Option TlsConfig) :=
  if c.Certificate ≠ [] ∨ c.AuthX509Cert ≠ [] then
    let tlsConfig : TlsConfig :=
      { InsecureSkipVerify := c.InsecureSkipVerify, RootCAs := none,
        GetClientCertificate := none }
    let afterRoot : Except GoError TlsConfig :=
      if c.Certificate ≠ [] then
        if ¬ env.appendCertsFromPEM c.Certificate then
          .error (.new (lit "Failed parsing pem file"))
        else .ok { tlsConfig with RootCAs := some c.Certificate }
      else .ok tlsConfig
    match afterRoot with
    | .error err => .error err
    | .ok tlsConfig =>
      if c.AuthX509Cert ≠ [] then
        let privateKey := if c.AuthX509Key ≠ [] then c.AuthX509Key else c.AuthX509Cert
        match env.loadX509KeyPair c.AuthX509Cert privateKey with
        | .error err => .error err
        | .ok clientCert => .ok (some { tlsConfig with GetClientCertificate := some clientCert })
      else .ok (some tlsConfig)
  else .ok none

/-- Function `proxyDialer(c)`. -/
def proxyDialer (env : Driver) (c : ClientConfig) : Except GoError ContextDialer :=
  let proxyFromProvider := c.Proxy
  if proxyFromProvider.length > 0 then
    match env.urlParse proxyFromProvider with
    | some err => .error err
    | none =>
      match env.proxyFromURL proxyFromProvider with
      | some err => .error err
      | none => .ok (.fromURL proxyFromProvider)
  else .ok .fromEnvironment

/-- The `clientOpts` that `MongoClient` hands to `mongo.NewClient`. -/
structure ClientOptions where
  uri : GoString
  auth : Credential
  dialer : ContextDialer
  tlsConfig : Option TlsConfig
  deriving DecidableEq, Repr

/-- Function `ClientConfig.MongoClient`: the options of the client it
creates, or the first error. -/
def MongoClient (env : Driver) (c : ClientConfig) : Except GoError ClientOptions :=
  let uri := mongoClientURI c
  match proxyDialer env c with
  | .error dialerErr => .error dialerErr
  | .ok dialer =>
    match getClientAuth c with
    | .error clientAuthErr => .error clientAuthErr
    | .ok clientAuth =>
      match getTlsConfig env c with
      | .error tlsConfigErr => .error tlsConfigErr
      | .ok tlsConfig =>
        match env.newClient uri with
        | some err => .error err
        | none => .ok { uri := uri, auth := clientAuth, dialer := dialer, tlsConfig := tlsConfig }

/-- Modelled from the spec: the struct `MongoDatabaseConfiguration`, declared
outside `src/`; `MongoClientInit` reads its `Config` and its
`MaxConnLifetime` (seconds of the connection deadline). -/
structure MongoDatabaseConfiguration where
  Config : ClientConfig
  MaxConnLifetime : Nat
  deriving DecidableEq, Repr

/-- The calls on the driver that concern the connection: creating the
deadline context, `Connect` (with whether it succeeded), `Ping` (likewise),
the deferred `cancel`, and `Disconnect`. -/
inductive DriverCall where
  | withTimeout (seconds : Nat)
  | connect (ok : Bool)
  | ping (ok : Bool)
  | cancel
  | disconnect
  deriving DecidableEq, Repr

/-- Function `MongoClientInit(conf)`: the client or the error, and the driver
calls made, in order (the deferred `cancel` runs when the function returns).
The client that `MongoClient` creates is not connected; `Connect` opens its
connection. -/
def MongoClientInit (env : Driver) (conf : MongoDatabaseConfiguration) :
    Except GoError Client × List DriverCall :=
  match MongoClient env conf.Config with
  | .error err => (.error err, [])
  | .ok _ =>
    let client : Client := { issued := [], cluster := env.cluster, connected := false }
    match client.Connect env.connect with
    | (some err, _) =>
      (.error err, [.withTimeout conf.MaxConnLifetime, .connect false, .cancel])
    | (none, client) =>
      match env.ping with
      | some err =>
        (.error err,
         [.withTimeout conf.MaxConnLifetime, .connect true, .ping false, .cancel])
      | none =>
        (.ok client,
         [.withTimeout conf.MaxConnLifetime, .connect true, .ping true, .cancel])

/-- Whether the connection is open after a sequence of driver calls: a
successful `Connect` opens it, `Disconnect` closes it. -/
def connectionOpen (calls : List DriverCall) : Bool :=
  calls.foldl (fun st call =>
    match call with
    | .connect true => true
    | .disconnect => false
    | _ => st) false

/-! ## The remaining resource operations -/

/-- Function `resourceDatabaseUserDelete`; `init` is the outcome of
`MongoClientInit(config)`. -/
def resourceDatabaseUserDelete (init : Except GoError Client) (data : UserData) : UserRun :=
  match init with
  | .error connectionError =>
    ⟨diagErrorf (lit "Error connecting to database : ") connectionError (lit " "), none, data⟩
  | .ok client =>
    match parseUserId data.stateID with
    | .error parseUserIdErr =>
      ⟨diagErrorf (lit "ID mismatch ") parseUserIdErr [], some client, data⟩
    | .ok (userName, database) =>
      let (deleteUserErr, client) := dropUser client userName database
      match deleteUserErr with
      | some err =>
        ⟨diagErrorf (lit "Could not delete the user : ") err (lit " "), some client, data⟩
      | none => ⟨none, some client, data⟩

/-- Function `resourceDatabaseUserRead`; `init` is the outcome of
`MongoClientInit(config)`. -/
def resourceDatabaseUserRead (init : Except GoError Client) (data : UserData) : UserRun :=
  match init with
  | .error connectionError =>
    ⟨diagErrorf (lit "Error connecting to database : ") connectionError (lit " "), none, data⟩
  | .ok client =>
    let password := data.password
    match parseUserId data.stateID with
    | .error parseUserIdErr =>
      ⟨diagErrorf (lit "Error parsing user id : ") parseUserIdErr (lit " "), some client, data⟩
    | .ok (userName, database) =>
      let (result, client) := getUser client userName database password
      match result with
      | .error decodeError =>
        ⟨diagErrorf (lit "Error decoding user : ") decodeError (lit " "), some client, data⟩
      | .ok user =>
        let (writeUserErr, data) := writeUserToData data user
        match writeUserErr with
        | some err =>
          ⟨diagErrorf (lit "Error writing user : ") err (lit " "), some client, data⟩
        | none => ⟨none, some client, data⟩

/-- Function `resourceDatabaseRoleCreate`; `init` is the outcome of
`MongoClientInit(config)`. -/
def resourceDatabaseRoleCreate (init : Except GoError Client) (data : RoleData) : RoleRun :=
  match init with
  | .error connectionError =>
    ⟨diagErrorf (lit "Error connecting to database : ") connectionError (lit " "), none, data⟩
  | .ok client =>
    match readRoleFromData data with
    | .error readRoleErr =>
      ⟨diagErrorf (lit "Error reading role : ") readRoleErr (lit " "), some client, data⟩
    | .ok role =>
      let (createRoleErr, client) := createRole client role
      match createRoleErr with
      | some err =>
        ⟨diagErrorf (lit "Could not create the role : ") err (lit " "), some client, data⟩
      | none =>
        let (writeRoleErr, data) := writeRoleToData data (some role)
        match writeRoleErr with
        | some err =>
          ⟨diagErrorf (lit "Error writing role : ") err (lit " "), some client, data⟩
        | none => ⟨none, some client, data⟩

/-- Function `resourceDatabaseRoleDelete`; `init` is the outcome of
`MongoClientInit(config)`. -/
def resourceDatabaseRoleDelete (init : Except GoError Client) (data : RoleData) : RoleRun :=
  match init with
  | .error connectionError =>
    ⟨diagErrorf (lit "Error connecting to database : ") connectionError (lit " "), none, data⟩
  | .ok client =>
    match parseRoleId data.stateID with
    | .error parseRoleIdErr => ⟨diagErrorf [] parseRoleIdErr [], some client, data⟩
    | .ok (roleName, database) =>
      let (dropRoleErr, client) := dropRole client roleName database
      match dropRoleErr with
      | some err =>
        ⟨diagErrorf (lit "Error deleting the role: ") err (lit " "), some client, data⟩
      | none => ⟨none, some client, data⟩

/-- Function `resourceDatabaseRoleRead`; `init` is the outcome of
`MongoClientInit(config)`. -/
def resourceDatabaseRoleRead (init : Except GoError Client) (data : RoleData) : RoleRun :=
  match init with
  | .error connectionError =>
    ⟨diagErrorf (lit "Error connecting to database : ") connectionError (lit " "), none, data⟩
  | .ok client =>
    match parseRoleId data.stateID with
    | .error parseRoleIdErr => ⟨diagErrorf [] parseRoleIdErr [], some client, data⟩
    | .ok (roleName, database) =>
      let (result, client) := getRole client roleName database
      match result with
      | .error decodeError =>
        ⟨diagErrorf (lit "Error decoding role : ") decodeError (lit " "), some client, data⟩
      | .ok role =>
        let (writeRoleErr, data) := writeRoleToData data role
        match writeRoleErr with
        | some err =>
          ⟨diagErrorf (lit "Error writing role : ") err (lit " "), some client, data⟩
        | none => ⟨none, some client, data⟩

/-- The eight reconcile operations run on the outcome `init` of
`MongoClientInit(config)`, each reduced to the client it returns with. -/
def reconcileClients (init : Except GoError Client) (user : UserData) (role : RoleData) :
    List (Option Client) :=
  [(resourceDatabaseUserCreate init user).client, (resourceDatabaseUserRead init user).client,
   (resourceDatabaseUserUpdate init user).client, (resourceDatabaseUserDelete init user).client,
   (resourceDatabaseRoleCreate init role).client, (resourceDatabaseRoleRead init role).client,
   (resourceDatabaseRoleUpdate init role).client, (resourceDatabaseRoleDelete init role).client]

/-! ## A concrete deployment -/

/-- A deployment without proxy failures whose cluster accepts every command:
the file `/etc/ssl/client.pem` holds a client certificate with its key and is
the only key pair that loads, and no text handed to `AppendCertsFromPEM` is a
certificate. -/
def workingDriver : Driver :=
  { urlParse := fun _ => none, proxyFromURL := fun _ => none,
    appendCertsFromPEM := fun _ => false,
    loadX509KeyPair := fun cert key =>
      if cert = lit "/etc/ssl/client.pem" ∧ key = lit "/etc/ssl/client.pem" then .ok ⟨cert, key⟩
      else .error (.new (lit "no such file or directory")),
    newClient := fun _ => none, connect := none, ping := none,
    cluster := fun _ _ => .reply ⟨.ok ⟨[]⟩, .ok ⟨[]⟩⟩ }

/-- A configuration that asks for TLS without verification and supplies
neither a CA certificate nor a client certificate. -/
def skipVerifyConfig : ClientConfig :=
  { Host := lit "localhost", Port := lit "27017", AuthSchema := lit "PLAIN",
    Username := lit "root", Password := lit "secret", AuthX509Cert := [], AuthX509Key := [],
    DB := lit "admin", Ssl := true, InsecureSkipVerify := true,
    ReplicaSet := [], RetryWrites := true, Certificate := [], Direct := false,
    Proxy := [] }

/-- The same request for TLS without verification, with a text for the CA
certificate that is no certificate. -/
def skipVerifyWithCA : ClientConfig :=
  { skipVerifyConfig with Certificate := lit "-----BEGIN CERTIFICATE-----" }

/-- The same request for TLS without verification, with the client
certificate file `/etc/ssl/client.pem` (certificate and key in one file). -/
def skipVerifyWithClientCert : ClientConfig :=
  { skipVerifyConfig with AuthX509Cert := lit "/etc/ssl/client.pem" }

/-- The provider configuration around `skipVerifyConfig`, with a deadline of
ten seconds. -/
def workingConfiguration : MongoDatabaseConfiguration :=
  { Config := skipVerifyConfig, MaxConnLifetime := 10 }

/-- The role `reporter` of `app` with one privilege, `find` on `app.orders`,
and no inherited role. -/
def reporterRole : Role :=
  { Name := lit "reporter", Database := lit "app", Roles := [],
    Privileges := [⟨lit "app", lit "orders", [lit "find"]⟩] }

/-- A cluster whose roles-info reply carries `reporterRole` in the wire shape
that `createRole` sends. -/
def reporterCluster : Client :=
  { issued := [],
    cluster := fun _ _ => .reply
      ⟨.ok ⟨[]⟩,
       .ok ⟨[⟨lit "reporter", lit "app", [], privilegesData reporterRole⟩]⟩⟩ }

/-! # Theorems -/

/-! ## base64: decoding inverts encoding -/

theorem decodeMap_encChar_fin : ∀ i : Fin 64, decodeMap (encChar i.val) = i.val := by decide

theorem decodeMap_encChar (i : Nat) (h : i < 64) : decodeMap (encChar i) = i :=
  decodeMap_encChar_fin ⟨i, h⟩

theorem or_eq_add_of_lt (k x y : Nat) (hx : x % 2 ^ k = 0) (hy : y < 2 ^ k) :
    x ||| y = x + y := by
  have h := Nat.mul_add_lt_is_or hy (x / 2 ^ k)
  have hx2 : 2 ^ k * (x / 2 ^ k) = x := by
    have := Nat.div_add_mod x (2 ^ k)
    omega
  rw [hx2] at h
  exact h.symm

theorem pack3 (a b c : Nat) (hb : b < 256) (hc : c < 256) :
    (a <<< 16) ||| (b <<< 8) ||| c = a * 65536 + b * 256 + c := by
  rw [or_eq_add_of_lt 16 (a <<< 16) (b <<< 8) (by omega) (by omega)]
  rw [or_eq_add_of_lt 8 _ c (by omega) (by omega)]
  omega

theorem pack4 (a b c d : Nat) (hb : b < 64) (hc : c < 64) (hd : d < 64) :
    (a <<< 18) ||| (b <<< 12) ||| (c <<< 6) ||| d = a * 262144 + b * 4096 + c * 64 + d := by
  rw [or_eq_add_of_lt 18 (a <<< 18) (b <<< 12) (by omega) (by omega)]
  rw [or_eq_add_of_lt 12 _ (c <<< 6) (by omega) (by omega)]
  rw [or_eq_add_of_lt 6 _ d (by omega) (by omega)]
  omega

theorem mask6 (x : Nat) : x &&& 0x3F = x % 64 := Nat.and_pow_two_sub_one_eq_mod x 6


theorem quantumLoop_step (dbuf : List Nat) (i : Nat) (rest : List Byte)
    (hd : dbuf.length < 4) (hi : i < 64) :
    quantumLoop dbuf (encChar i :: rest) = quantumLoop (dbuf ++ [i]) rest := by
  have h1 : dbuf.length ≠ 4 := by omega
  have h2 : decodeMap (encChar i) ≠ 0xff := by rw [decodeMap_encChar i hi]; omega
  rw [quantumLoop]
  have h3 : i ≠ 255 := by omega
  simp only [h1, if_false, ne_eq, not_false_eq_true, if_true, decodeMap_encChar i hi, h3]

theorem quantumLoop_done (dbuf : List Nat) (src : List Byte) (hd : dbuf.length = 4) :
    quantumLoop dbuf src = ⟨src, quantumBytes dbuf 4, none⟩ := by
  cases src <;> simp [quantumLoop, hd]

theorem decodeQuantum_full (i0 i1 i2 i3 : Nat) (rest : List Byte)
    (h0 : i0 < 64) (h1 : i1 < 64) (h2 : i2 < 64) (h3 : i3 < 64) :
    decodeQuantum (encChar i0 :: encChar i1 :: encChar i2 :: encChar i3 :: rest)
      = ⟨rest, quantumBytes [i0, i1, i2, i3] 4, none⟩ := by
  unfold decodeQuantum
  rw [quantumLoop_step _ _ _ (by simp) h0, quantumLoop_step _ _ _ (by simp) h1,
    quantumLoop_step _ _ _ (by simp) h2, quantumLoop_step _ _ _ (by simp) h3,
    quantumLoop_done _ _ (by simp)]
  rfl

theorem decodeMap_padChar : decodeMap 61 = 0xff := by decide

theorem decodeQuantum_pad1 (i0 i1 i2 : Nat)
    (h0 : i0 < 64) (h1 : i1 < 64) (h2 : i2 < 64) :
    decodeQuantum [encChar i0, encChar i1, encChar i2, padChar]
      = ⟨[], quantumBytes [i0, i1, i2] 3, none⟩ := by
  unfold decodeQuantum
  rw [quantumLoop_step _ _ _ (by simp) h0, quantumLoop_step _ _ _ (by simp) h1,
    quantumLoop_step _ _ _ (by simp) h2]
  simp [quantumLoop, quantumPadding, decodeMap_padChar, skipNewlines, padChar, newline, carriage]

theorem decodeQuantum_pad2 (i0 i1 : Nat) (h0 : i0 < 64) (h1 : i1 < 64) :
    decodeQuantum [encChar i0, encChar i1, padChar, padChar]
      = ⟨[], quantumBytes [i0, i1] 2, none⟩ := by
  unfold decodeQuantum
  rw [quantumLoop_step _ _ _ (by simp) h0, quantumLoop_step _ _ _ (by simp) h1]
  simp [quantumLoop, quantumPadding, decodeMap_padChar, skipNewlines, padChar, newline, carriage]

theorem quantumBytes_full (a b c : Byte) :
    quantumBytes
      [((a.val <<< 16) ||| (b.val <<< 8) ||| c.val) >>> 18 &&& 0x3F,
       ((a.val <<< 16) ||| (b.val <<< 8) ||| c.val) >>> 12 &&& 0x3F,
       ((a.val <<< 16) ||| (b.val <<< 8) ||| c.val) >>> 6 &&& 0x3F,
       ((a.val <<< 16) ||| (b.val <<< 8) ||| c.val) &&& 0x3F] 4 = [a, b, c] := by
  have ha := a.isLt
  have hb := b.isLt
  have hc := c.isLt
  simp only [quantumBytes, List.getD_cons_zero, List.getD_cons_succ, mask6]
  rw [pack3 _ _ _ hb hc, pack4 _ _ _ _ (Nat.mod_lt _ (by decide)) (Nat.mod_lt _ (by decide))
    (Nat.mod_lt _ (by decide))]
  simp only [Nat.shiftRight_zero]
  have e0 : ∀ (x : Byte) (n : Nat), n % 256 = x.val → (Fin.ofNat n : Byte) = x := by
    intro x n h
    apply Fin.ext
    simp only [Fin.ofNat]
    exact h
  rw [e0 a _ (by omega), e0 b _ (by omega), e0 c _ (by omega)]


theorem quantumBytes_two (a b : Byte) :
    quantumBytes
      [((a.val <<< 16) ||| (b.val <<< 8)) >>> 18 &&& 0x3F,
       ((a.val <<< 16) ||| (b.val <<< 8)) >>> 12 &&& 0x3F,
       ((a.val <<< 16) ||| (b.val <<< 8)) >>> 6 &&& 0x3F] 3 = [a, b] := by
  have ha := a.isLt
  have hb := b.isLt
  simp only [quantumBytes, List.getD_cons_zero, List.getD_cons_succ, mask6, List.getD_nil]
  rw [or_eq_add_of_lt 16 (a.val <<< 16) (b.val <<< 8) (by omega) (by omega),
    pack4 _ _ _ _ (Nat.mod_lt _ (by decide)) (Nat.mod_lt _ (by decide)) (by decide)]
  have e0 : ∀ (x : Byte) (n : Nat), n % 256 = x.val → (Fin.ofNat n : Byte) = x := by
    intro x n h
    apply Fin.ext
    simp only [Fin.ofNat]
    exact h
  rw [e0 a _ (by omega), e0 b _ (by omega)]

theorem quantumBytes_one (a : Byte) :
    quantumBytes [(a.val <<< 16) >>> 18 &&& 0x3F, (a.val <<< 16) >>> 12 &&& 0x3F] 2 = [a] := by
  have ha := a.isLt
  simp only [quantumBytes, List.getD_cons_zero, List.getD_cons_succ, mask6, List.getD_nil]
  rw [pack4 _ _ _ _ (Nat.mod_lt _ (by decide)) (by decide) (by decide)]
  have e0 : ∀ (x : Byte) (n : Nat), n % 256 = x.val → (Fin.ofNat n : Byte) = x := by
    intro x n h
    apply Fin.ext
    simp only [Fin.ofNat]
    exact h
  rw [e0 a _ (by omega)]

theorem mask6_lt (x : Nat) : x &&& 0x3F < 64 := by
  rw [mask6]; exact Nat.mod_lt _ (by decide)

/-- Decoding an encoded byte string gives the bytes back, for any fuel that
covers the encoded length. -/
theorem decodeLoop_Encode (bs : List Byte) :
    ∀ fuel, (Encode bs).length ≤ fuel → decodeLoop fuel (Encode bs) = .ok bs := by
  induction bs using Encode.induct with
  | case1 a b c rest ih =>
    intro fuel hf
    simp only [Encode, List.length_cons] at hf ⊢
    obtain ⟨f, rfl⟩ : ∃ f, fuel = f + 1 := ⟨fuel - 1, by omega⟩
    rw [decodeLoop, decodeQuantum_full _ _ _ _ _ (mask6_lt _) (mask6_lt _) (mask6_lt _)
      (mask6_lt _)]
    simp only [quantumBytes_full]
    rw [ih f (by omega)]
    rfl
  | case2 a b =>
    intro fuel hf
    simp only [Encode, List.length_cons] at hf ⊢
    obtain ⟨f, rfl⟩ : ∃ f, fuel = f + 1 := ⟨fuel - 1, by omega⟩
    rw [decodeLoop, decodeQuantum_pad1 _ _ _ (mask6_lt _) (mask6_lt _) (mask6_lt _)]
    simp only [quantumBytes_two]
    cases f <;> simp [decodeLoop]
  | case3 a =>
    intro fuel hf
    simp only [Encode, List.length_cons] at hf ⊢
    obtain ⟨f, rfl⟩ : ∃ f, fuel = f + 1 := ⟨fuel - 1, by omega⟩
    rw [decodeLoop, decodeQuantum_pad2 _ _ (mask6_lt _) (mask6_lt _)]
    simp only [quantumBytes_one]
    cases f <;> simp [decodeLoop]
  | case4 =>
    intro fuel _
    cases fuel <;> simp [Encode, decodeLoop]

theorem DecodeString_EncodeToString (bs : List Byte) :
    DecodeString (EncodeToString bs) = .ok bs :=
  decodeLoop_Encode bs _ (Nat.le_refl _)


theorem skipNewlines_length_le (s : List Byte) : (skipNewlines s).length ≤ s.length := by
  induction s with
  | nil => simp [skipNewlines]
  | cons c rest ih =>
    rw [skipNewlines]
    split
    · simp only [List.length_cons]; omega
    · exact Nat.le_refl _

theorem quantumPadding_rest_le (dbuf : List Nat) (rest : List Byte) :
    (quantumPadding dbuf rest).rest.length ≤ rest.length := by
  have hs := skipNewlines_length_le rest
  unfold quantumPadding
  split
  · simp
  · simp
  · split
    · simp
    · rename_i c2 rest2 heq
      have h2 := skipNewlines_length_le rest2
      rw [heq] at hs
      simp only [List.length_cons] at hs
      split_ifs <;> simp <;> omega
  · simpa using hs

theorem quantumLoop_rest_le (src : List Byte) :
    ∀ dbuf, (quantumLoop dbuf src).rest.length ≤ src.length := by
  induction src with
  | nil => intro dbuf; rw [quantumLoop]; split_ifs <;> simp
  | cons c rest ih =>
    intro dbuf
    have hp := quantumPadding_rest_le dbuf rest
    rw [quantumLoop]
    simp only [List.length_cons]
    split_ifs
    · simp
    · have := ih (dbuf ++ [decodeMap c]); omega
    · have := ih dbuf; omega
    · simp
    · omega

theorem quantumLoop_consumes (c : Byte) (rest : List Byte) (dbuf : List Nat)
    (hd : dbuf.length ≠ 4) : (quantumLoop dbuf (c :: rest)).rest.length ≤ rest.length := by
  rw [quantumLoop]
  simp only [hd, if_false]
  split_ifs
  · exact quantumLoop_rest_le rest _
  · exact quantumLoop_rest_le rest _
  · simp
  · exact quantumPadding_rest_le dbuf rest

/-- Every quantum read from non-empty input consumes at least one byte. -/
theorem decodeQuantum_consumes (c : Byte) (rest : List Byte) :
    (decodeQuantum (c :: rest)).rest.length ≤ rest.length :=
  quantumLoop_consumes c rest [] (by simp)

/-- The fuel of `decodeLoop` is never exhausted once it covers the input. -/
theorem decodeLoop_fuel (f1 : Nat) :
    ∀ (f2 : Nat) (src : List Byte), src.length ≤ f1 → src.length ≤ f2 →
      decodeLoop f1 src = decodeLoop f2 src := by
  induction f1 with
  | zero =>
    intro f2 src h1 _
    have : src = [] := List.length_eq_zero.mp (by omega)
    subst this
    cases f2 <;> simp [decodeLoop]
  | succ f ih =>
    intro f2 src h1 h2
    cases src with
    | nil => cases f2 <;> simp [decodeLoop]
    | cons c rest =>
      obtain ⟨g, rfl⟩ : ∃ g, f2 = g + 1 := ⟨f2 - 1, by simp at h2; omega⟩
      have hc := decodeQuantum_consumes c rest
      simp only [List.length_cons] at h1 h2
      rw [decodeLoop, decodeLoop, ih g _ (by omega) (by omega)]


/-! ## The identifier codec -/

theorem lit_dot : lit "." = [dot] := by decide

theorem Index_of_not_mem (s : GoString) (sep : Byte) (h : sep ∉ s) : Index s sep = -1 := by
  unfold Index
  rw [List.indexOf_of_not_mem h]
  simp

theorem Index_append (a b : GoString) (sep : Byte) (h : sep ∉ a) :
    Index (a ++ sep :: b) sep = (a.length : Int) := by
  unfold Index
  rw [List.indexOf_append_of_not_mem h, List.indexOf_cons_self]
  simp

/-- A string without the separator is not split. -/
theorem SplitN_two_of_not_mem (s : GoString) (sep : Byte) (h : sep ∉ s) :
    SplitN s sep 2 = [s] := by
  unfold SplitN
  cases s with
  | nil => simp [genSplitLoop]
  | cons c rest => simp [genSplitLoop, Index_of_not_mem _ _ h]

/-- A string is split at the first separator only. -/
theorem SplitN_two_append (a b : GoString) (sep : Byte) (h : sep ∉ a) :
    SplitN (a ++ sep :: b) sep 2 = [a, b] := by
  unfold SplitN
  have hlen : ¬ (2 > (a ++ sep :: b).length + 1) := by simp; omega
  simp only [hlen, if_false]
  simp [genSplitLoop, Index_append _ _ _ h]

/-- A string that contains the separator has a part before the first
occurrence and a remainder after it. -/
theorem exists_first_sep (s : GoString) (sep : Byte) (h : sep ∈ s) :
    ∃ a b, s = a ++ sep :: b ∧ sep ∉ a := by
  induction s with
  | nil => simp at h
  | cons c rest ih =>
    by_cases hc : c = sep
    · exact ⟨[], rest, by simp [hc], by simp⟩
    · have hr : sep ∈ rest := by
        rcases List.mem_cons.mp h with h1 | h1
        · exact absurd h1.symm hc
        · exact h1
      obtain ⟨a, b, hab, ha⟩ := ih hr
      refine ⟨c :: a, b, by simp [hab], ?_⟩
      simp only [List.mem_cons, not_or]
      exact ⟨fun e => hc e.symm, ha⟩


/-- What `parseUserId` returns once the id has been decoded to `plain`. -/
theorem parseUserId_of_decoded (id plain : GoString) (h : DecodeString id = .ok plain) :
    parseUserId id =
      if (SplitN plain dot 2).length ≠ 2 ∨ (SplitN plain dot 2).getD 0 [] = []
          ∨ (SplitN plain dot 2).getD 1 [] = [] then
        .error (.errorfS (lit "unexpected format of ID (") id (lit "), expected db.username"))
      else .ok ((SplitN plain dot 2).getD 1 [], (SplitN plain dot 2).getD 0 []) := by
  simp only [parseUserId, h]

/-- What `parseRoleId` returns once the id has been decoded to `plain`. -/
theorem parseRoleId_of_decoded (id plain : GoString) (h : DecodeString id = .ok plain) :
    parseRoleId id =
      if (SplitN plain dot 2).length ≠ 2 ∨ (SplitN plain dot 2).getD 0 [] = []
          ∨ (SplitN plain dot 2).getD 1 [] = [] then
        .error (.errorfS (lit "unexpected format of ID (") id
          (lit "), expected database.roleName"))
      else .ok ((SplitN plain dot 2).getD 1 [], (SplitN plain dot 2).getD 0 []) := by
  simp only [parseRoleId, h]

/-- C1 (as stated, refuted): the database `""` contains no `"."`, yet the id
made for user `alice` in it does not decode: `parseUserId` rejects the empty
database part. -/
theorem C1_roundtrip_fails_on_empty_database :
    dot ∉ ([] : GoString) ∧
    parseUserId (makeUserId (lit "alice") []) =
      .error (.errorfS (lit "unexpected format of ID (") (lit "LmFsaWNl")
        (lit "), expected db.username")) := by
  decide

/-- C1 (amended): for every non-empty `database` without `"."` and every
non-empty `name`, `parseUserId (makeUserId name database)` succeeds with
`(name, database)`, and so does `parseRoleId (makeRoleId name database)`. -/
theorem C1_id_roundtrip (name database : GoString)
    (hdot : dot ∉ database) (hdb : database ≠ []) (hname : name ≠ []) :
    parseUserId (makeUserId name database) = .ok (name, database) ∧
    parseRoleId (makeRoleId name database) = .ok (name, database) := by
  have hdec : DecodeString (EncodeToString (database ++ lit "." ++ name))
      = .ok (database ++ lit "." ++ name) := DecodeString_EncodeToString _
  have hsplit : SplitN (database ++ lit "." ++ name) dot 2 = [database, name] := by
    rw [lit_dot, List.append_assoc]
    exact SplitN_two_append database name dot hdot
  constructor
  · rw [makeUserId, parseUserId_of_decoded _ _ hdec, hsplit]
    simp [hdb, hname]
  · rw [makeRoleId, parseRoleId_of_decoded _ _ hdec, hsplit]
    simp [hdb, hname]

/-- C1 (amended) at user and role `alice` of database `admin`. -/
theorem C1_id_roundtrip_witness :
    parseUserId (makeUserId (lit "alice") (lit "admin")) = .ok (lit "alice", lit "admin") ∧
    parseRoleId (makeRoleId (lit "alice") (lit "admin")) = .ok (lit "alice", lit "admin") :=
  C1_id_roundtrip (lit "alice") (lit "admin") (by decide) (by decide) (by decide)


theorem split_parts_iff (plain name database : GoString) :
    (¬ ((SplitN plain dot 2).length ≠ 2 ∨ (SplitN plain dot 2).getD 0 [] = []
          ∨ (SplitN plain dot 2).getD 1 [] = []) ∧
      (SplitN plain dot 2).getD 1 [] = name ∧ (SplitN plain dot 2).getD 0 [] = database) ↔
    (plain = database ++ dot :: name ∧ dot ∉ database ∧ database ≠ [] ∧ name ≠ []) := by
  constructor
  · rintro ⟨hok, hn, hd⟩
    by_cases hmem : dot ∈ plain
    · obtain ⟨a, b, rfl, ha⟩ := exists_first_sep plain dot hmem
      rw [SplitN_two_append a b dot ha] at hok hn hd
      simp at hok hn hd
      subst hn hd
      exact ⟨rfl, ha, hok.1, hok.2⟩
    · rw [SplitN_two_of_not_mem plain dot hmem] at hok
      simp at hok
  · rintro ⟨rfl, hdot, hd, hn⟩
    rw [SplitN_two_append database name dot hdot]
    simp [hd, hn]

theorem ite_error_ok_iff (c : Prop) [Decidable c] (e : GoError) (x y n d : GoString) :
    (if c then (Except.error e : Except GoError (GoString × GoString)) else .ok (x, y))
      = .ok (n, d) ↔ (¬ c ∧ x = n ∧ y = d) := by
  by_cases hc : c
  · simp [hc]
  · simp [hc]

theorem parseUserId_ok_iff (id name database : GoString) :
    parseUserId id = .ok (name, database) ↔ IdShape id name database := by
  unfold IdShape
  cases hdec : DecodeString id with
  | error e => simp [parseUserId, hdec]
  | ok plain =>
    rw [parseUserId_of_decoded id plain hdec, ite_error_ok_iff, split_parts_iff]
    simp

theorem parseRoleId_ok_iff (id name database : GoString) :
    parseRoleId id = .ok (name, database) ↔ IdShape id name database := by
  unfold IdShape
  cases hdec : DecodeString id with
  | error e => simp [parseRoleId, hdec]
  | ok plain =>
    rw [parseRoleId_of_decoded id plain hdec, ite_error_ok_iff, split_parts_iff]
    simp

/-- C2: `parseUserId id` (and likewise `parseRoleId id`) returns
`(name, database)` exactly when `id` is valid base64 whose plaintext is a
non-empty `database` without `"."`, then `"."`, then a non-empty `name` (which
may contain `"."`); in every other case it fails with an error. -/
theorem C2_parse_id (id : GoString) :
    (∀ name database, parseUserId id = .ok (name, database) ↔ IdShape id name database) ∧
    (∀ name database, parseRoleId id = .ok (name, database) ↔ IdShape id name database) ∧
    ((∃ name database, IdShape id name database) ∨
      ((∃ e, parseUserId id = .error e) ∧ (∃ e, parseRoleId id = .error e))) := by
  refine ⟨parseUserId_ok_iff id, parseRoleId_ok_iff id, ?_⟩
  cases h : parseUserId id with
  | ok p => exact Or.inl ⟨p.1, p.2, (parseUserId_ok_iff id p.1 p.2).mp h⟩
  | error e =>
    cases h2 : parseRoleId id with
    | ok p =>
      have h3 := (parseUserId_ok_iff id p.1 p.2).mpr ((parseRoleId_ok_iff id p.1 p.2).mp h2)
      rw [h] at h3
      cases h3
    | error e2 => exact Or.inr ⟨⟨e, rfl⟩, ⟨e2, rfl⟩⟩

/-- C2 at the id of `admin.al.ice`: the name keeps its `"."`. -/
theorem C2_parse_id_witness :
    parseUserId (lit "YWRtaW4uYWwuaWNl") = .ok (lit "al.ice", lit "admin") :=
  ((C2_parse_id (lit "YWRtaW4uYWwuaWNl")).1 (lit "al.ice") (lit "admin")).mpr (by decide)


/-! ## The connection resolver -/

/-- C3: `getClientAuth` succeeds exactly for `PLAIN` with non-empty username
and password (credential: AuthSource = DB, the given username and password)
and for `MONGODB-X509` with DB `$external` (credential: AuthSource =
`$external`); `PLAIN` with an empty username or password fails with the
invalid-credential error, `MONGODB-X509` with another DB fails naming that DB,
and any other scheme fails naming the scheme and listing both valid ones. -/
theorem C3_getClientAuth (c : ClientConfig) :
    ((∃ cred, getClientAuth c = .ok cred) ↔
      ((c.AuthSchema = lit "PLAIN" ∧ c.Username ≠ [] ∧ c.Password ≠ []) ∨
       (c.AuthSchema = lit "MONGODB-X509" ∧ c.DB = lit "$external"))) ∧
    ((c.AuthSchema = lit "PLAIN" ∧ c.Username ≠ [] ∧ c.Password ≠ [] ∧
        getClientAuth c = .ok { AuthMechanism := [], AuthSource := c.DB,
                                Username := c.Username, Password := c.Password }) ∨
     (c.AuthSchema = lit "PLAIN" ∧ (c.Username = [] ∨ c.Password = []) ∧
        getClientAuth c = .error
          (.new (lit "The PLAIN auth schema requires user and password to be provided"))) ∨
     (c.AuthSchema = lit "MONGODB-X509" ∧ c.DB = lit "$external" ∧
        getClientAuth c = .ok { AuthMechanism := lit "MONGODB-X509",
                                AuthSource := lit "$external", Username := [], Password := [] }) ∨
     (c.AuthSchema = lit "MONGODB-X509" ∧ c.DB ≠ lit "$external" ∧
        getClientAuth c = .error (.errorfS
          (lit "The MONGODB-X509 auth schema requires the $external auth database, can't use ")
          c.DB [])) ∨
     (c.AuthSchema ≠ lit "PLAIN" ∧ c.AuthSchema ≠ lit "MONGODB-X509" ∧
        getClientAuth c = .error (.errorfS (lit "Unknown auth schema: ") c.AuthSchema
          (lit ", should be PLAIN or MONGODB-X509")))) := by
  have hne : lit "PLAIN" ≠ lit "MONGODB-X509" := by decide
  by_cases hp : c.AuthSchema = lit "PLAIN"
  · by_cases hu : c.Username = [] ∨ c.Password = []
    · have hv : getClientAuth c = .error
          (.new (lit "The PLAIN auth schema requires user and password to be provided")) := by
        simp only [getClientAuth, hp, if_true, hu]
      refine ⟨?_, Or.inr (Or.inl ⟨hp, hu, hv⟩)⟩
      rw [hv]
      constructor
      · rintro ⟨cred, h⟩; cases h
      · rintro (⟨_, h1, h2⟩ | ⟨h, _⟩)
        · rcases hu with hu | hu
          · exact absurd hu h1
          · exact absurd hu h2
        · exact absurd (hp.symm.trans h) hne
    · have hv : getClientAuth c = .ok ⟨[], c.DB, c.Username, c.Password⟩ := by
        simp only [getClientAuth, hp, if_true, hu, if_false]
      have hu2 : c.Username ≠ [] ∧ c.Password ≠ [] :=
        ⟨fun h => hu (Or.inl h), fun h => hu (Or.inr h)⟩
      refine ⟨?_, Or.inl ⟨hp, hu2.1, hu2.2, hv⟩⟩
      rw [hv]
      constructor
      · intro _; exact Or.inl ⟨hp, hu2.1, hu2.2⟩
      · intro _; exact ⟨_, rfl⟩
  · by_cases hx : c.AuthSchema = lit "MONGODB-X509"
    · by_cases hd : c.DB = lit "$external"
      · have hv : getClientAuth c = .ok ⟨lit "MONGODB-X509", lit "$external", [], []⟩ := by
          simp only [getClientAuth, hx, hne.symm, if_false, if_true, hd, ne_eq, not_true_eq_false]
        refine ⟨?_, Or.inr (Or.inr (Or.inl ⟨hx, hd, hv⟩))⟩
        rw [hv]
        constructor
        · intro _; exact Or.inr ⟨hx, hd⟩
        · intro _; exact ⟨_, rfl⟩
      · have hv : getClientAuth c = .error (.errorfS
            (lit "The MONGODB-X509 auth schema requires the $external auth database, can't use ")
            c.DB []) := by
          simp only [getClientAuth, hx, hne.symm, if_false, if_true, hd, ne_eq, not_false_eq_true]
        refine ⟨?_, Or.inr (Or.inr (Or.inr (Or.inl ⟨hx, hd, hv⟩)))⟩
        rw [hv]
        constructor
        · rintro ⟨cred, h⟩; cases h
        · rintro (⟨h, _⟩ | ⟨_, h⟩)
          · exact absurd h hp
          · exact absurd h hd
    · have hv : getClientAuth c = .error (.errorfS (lit "Unknown auth schema: ") c.AuthSchema
          (lit ", should be PLAIN or MONGODB-X509")) := by
        simp only [getClientAuth, hp, if_false, hx]
      refine ⟨?_, Or.inr (Or.inr (Or.inr (Or.inr ⟨hp, hx, hv⟩)))⟩
      rw [hv]
      constructor
      · rintro ⟨cred, h⟩; cases h
      · rintro (⟨h, _⟩ | ⟨h, _⟩)
        · exact absurd h hp
        · exact absurd h hx


theorem fields_ne_nil (sep : Byte) (s : GoString) : fields sep s ≠ [] := by
  cases s with
  | nil => simp [fields]
  | cons b rest =>
    rw [fields]
    split_ifs
    · simp
    · split <;> simp

theorem fields_of_not_mem (sep : Byte) (s : GoString) (h : sep ∉ s) : fields sep s = [s] := by
  induction s with
  | nil => rfl
  | cons b rest ih =>
    simp only [List.mem_cons, not_or] at h
    rw [fields, if_neg (fun e => h.1 e.symm), ih h.2]

theorem fields_cons_ne (sep b : Byte) (s : GoString) (hb : b ≠ sep) :
    fields sep (b :: s) = (fields sep s).head!.cons b :: (fields sep s).tail := by
  rw [fields, if_neg hb]
  cases hq : fields sep s with
  | nil => exact absurd hq (fields_ne_nil sep s)
  | cons f fs => rfl

theorem fields_snoc (sep : Byte) (x : GoString) (hx : sep ∉ x) (q : GoString) :
    fields sep (q ++ sep :: x) = fields sep q ++ [x] := by
  induction q with
  | nil => simp [fields, fields_of_not_mem sep x hx]
  | cons b q ih =>
    by_cases hb : b = sep
    · simp [fields, hb, ih]
    · rw [List.cons_append, fields_cons_ne sep b _ hb, fields_cons_ne sep b _ hb, ih]
      cases hq : fields sep q with
      | nil => exact absurd hq (fields_ne_nil sep q)
      | cons f fs => rfl

theorem dropWhile_append_of_forall (p : Byte → Bool) (a b : GoString)
    (h : ∀ x ∈ a, p x = true) : (a ++ b).dropWhile p = b.dropWhile p := by
  induction a with
  | nil => rfl
  | cons x a ih =>
    simp only [List.cons_append, List.dropWhile_cons, h x (List.mem_cons_self _ _), if_true]
    exact ih (fun y hy => h y (List.mem_cons_of_mem _ hy))

/-- The query of the assembled URI is the argument string without its `"/?"`. -/
theorem uriQuery_mongo (host port q : GoString) (hh : 63 ∉ host) (hp : 63 ∉ port) :
    uriQuery (lit "mongodb://" ++ host ++ lit ":" ++ port ++ (lit "/?" ++ q)) = q := by
  unfold uriQuery
  have hpre : ∀ x ∈ lit "mongodb://" ++ host ++ lit ":" ++ port ++ lit "/",
      (fun b : Byte => decide (b ≠ 63)) x = true := by
    intro x hx
    simp only [List.mem_append] at hx
    have h1 : (63 : Byte) ∉ lit "mongodb://" := by decide
    have h2 : (63 : Byte) ∉ lit ":" := by decide
    have h3 : (63 : Byte) ∉ lit "/" := by decide
    have hne : x ≠ 63 := by
      rcases hx with (((hx | hx) | hx) | hx) | hx
      · exact fun e => h1 (e ▸ hx)
      · exact fun e => hh (e ▸ hx)
      · exact fun e => h2 (e ▸ hx)
      · exact fun e => hp (e ▸ hx)
      · exact fun e => h3 (e ▸ hx)
    simpa using hne
  have hsplit : lit "mongodb://" ++ host ++ lit ":" ++ port ++ (lit "/?" ++ q)
      = (lit "mongodb://" ++ host ++ lit ":" ++ port ++ lit "/") ++ ((63 : Byte) :: q) := by
    have : lit "/?" = lit "/" ++ [(63 : Byte)] := by decide
    rw [this]
    simp
  rw [hsplit, dropWhile_append_of_forall _ _ _ hpre]
  simp

theorem addArgs_nil (x : GoString) : addArgs [] x = lit "/?" ++ x := by
  simp [addArgs]

theorem addArgs_query (q x : GoString) :
    addArgs (lit "/?" ++ q) x = lit "/?" ++ (q ++ (38 : Byte) :: x) := by
  have h1 : lit "/?" ++ q ≠ [] := by
    have : lit "/?" = [(47 : Byte), 63] := by decide
    rw [this]; simp
  have h2 : lit "&" = [(38 : Byte)] := by decide
  simp [addArgs, h1, h2]


theorem retrywrites_no_amp (b : Bool) : (38 : Byte) ∉ lit "retrywrites=" ++ FormatBool b := by
  cases b <;> decide

/-- The argument string is `"/?"` followed by a query whose fields are the
intended parameters, provided the replica-set name has no `'&'`. -/
theorem mongoClientArguments_fields (c : ClientConfig) (hr : (38 : Byte) ∉ c.ReplicaSet) :
    ∃ q, mongoClientArguments c = lit "/?" ++ q ∧ fields 38 q = intendedParams c := by
  have h0 := fields_of_not_mem 38 _ (retrywrites_no_amp c.RetryWrites)
  have hssl : (38 : Byte) ∉ lit "ssl=true" := by decide
  have hcon : (38 : Byte) ∉ lit "connect=direct" := by decide
  have hcd : lit "connect=" ++ lit "direct" = lit "connect=direct" := by decide
  have hrs : (38 : Byte) ∉ lit "replicaSet=" ++ c.ReplicaSet := by
    have : (38 : Byte) ∉ lit "replicaSet=" := by decide
    simp only [List.mem_append, not_or]
    exact ⟨this, hr⟩
  unfold mongoClientArguments intendedParams
  simp only [addArgs_nil, hcd]
  cases hS : c.Ssl <;> cases hD : c.Direct <;> by_cases hR : c.ReplicaSet = [] <;>
    simp only [hR, if_true, if_false, ne_eq, not_true_eq_false, not_false_eq_true, false_and,
      and_true, and_false, addArgs_query, Bool.false_eq_true, List.append_nil, reduceCtorEq] <;>
    refine ⟨_, rfl, ?_⟩ <;>
    simp only [fields_snoc _ _ hssl, fields_snoc _ _ hcon, fields_snoc _ _ hrs, h0,
      List.cons_append, List.nil_append]

theorem queryParams_mongoClientURI (c : ClientConfig)
    (hh : (63 : Byte) ∉ c.Host) (hp : (63 : Byte) ∉ c.Port) (hr : (38 : Byte) ∉ c.ReplicaSet) :
    queryParams (mongoClientURI c) = intendedParams c := by
  obtain ⟨q, hq, hf⟩ := mongoClientArguments_fields c hr
  unfold queryParams mongoClientURI
  rw [hq, uriQuery_mongo _ _ _ hh hp, hf]


theorem hasPrefix_false_of_head (s p : GoString) (b : Byte) (hp : p.head? = some b)
    (hs : s.head? ≠ some b) : hasPrefix s p = false := by
  cases p with
  | nil => simp at hp
  | cons x p =>
    cases s with
    | nil => simp [hasPrefix, List.isPrefixOf]
    | cons y s =>
      simp only [List.head?_cons, Option.some.injEq] at hp
      subst hp
      have hxy : x ≠ y := fun e => hs (by rw [e, List.head?_cons])
      simp [hasPrefix, List.isPrefixOf, hxy]

theorem replicaSet_head (x : GoString) : (lit "replicaSet=" ++ x).head? = some 114 := rfl

theorem replicaSet_third (x : GoString) : (lit "replicaSet=" ++ x).getD 2 0 = 112 := rfl

theorem retrywrites_third (b : Bool) :
    (lit "retrywrites=" ++ FormatBool b).getD 2 0 = 116 := by cases b <;> rfl

theorem replicaSet_ne_retrywrites (x : GoString) (b : Bool) :
    lit "replicaSet=" ++ x ≠ lit "retrywrites=" ++ FormatBool b := by
  intro h
  have h1 := replicaSet_third x
  rw [h, retrywrites_third] at h1
  exact absurd h1 (by decide)

theorem replicaSet_ne_ssl (x : GoString) : lit "replicaSet=" ++ x ≠ lit "ssl=true" := by
  intro h
  have h1 := replicaSet_head x
  rw [h] at h1
  exact absurd h1 (by decide)

theorem replicaSet_ne_connect (x : GoString) : lit "replicaSet=" ++ x ≠ lit "connect=direct" := by
  intro h
  have h1 := replicaSet_head x
  rw [h] at h1
  exact absurd h1 (by decide)

theorem replicaSet_ne_bare {x : GoString} (hx : x ≠ []) :
    lit "replicaSet=" ++ x ≠ lit "replicaSet=" := by
  intro h
  have : lit "replicaSet=" ++ x = lit "replicaSet=" ++ [] := by simpa using h
  exact hx (List.append_cancel_left this)


/-- C4 (as stated, refuted): with replica set `rs0&ssl=true` and `Ssl = false`
the URI is `mongodb://localhost:27017/?retrywrites=true&replicaSet=rs0&ssl=true`,
whose query parameters contain `ssl=true`. -/
theorem C4_ampersand_injects_parameter :
    ampersandConfig.Ssl = false ∧
    lit "ssl=true" ∈ queryParams (mongoClientURI ampersandConfig) := by
  decide

theorem intendedParams_facts (c : ClientConfig) :
    (lit "retrywrites=" ++ FormatBool c.RetryWrites ∈ intendedParams c) ∧
    (lit "ssl=true" ∈ intendedParams c ↔ c.Ssl = true) ∧
    (c.Ssl = true ∨ ∀ p ∈ intendedParams c, hasPrefix p (lit "ssl=") = false) ∧
    (lit "replicaSet=" ++ c.ReplicaSet ∈ intendedParams c ↔
      (c.ReplicaSet ≠ [] ∧ c.Direct = false)) ∧
    (lit "connect=direct" ∈ intendedParams c ↔ c.Direct = true) ∧
    (c.Direct = false ∨ ∀ p ∈ intendedParams c, hasPrefix p (lit "replicaSet=") = false) := by
  have a1 : lit "ssl=true" ≠ lit "retrywrites=" ++ FormatBool c.RetryWrites := by
    cases c.RetryWrites <;> decide
  have a2 : lit "connect=direct" ≠ lit "retrywrites=" ++ FormatBool c.RetryWrites := by
    cases c.RetryWrites <;> decide
  have a3 : lit "ssl=true" ≠ lit "connect=direct" := by decide
  have a4 := replicaSet_ne_retrywrites c.ReplicaSet c.RetryWrites
  have a5 := replicaSet_ne_ssl c.ReplicaSet
  have a6 := replicaSet_ne_connect c.ReplicaSet
  have a7 : lit "replicaSet=" ≠ lit "retrywrites=" ++ FormatBool c.RetryWrites := by
    cases c.RetryWrites <;> decide
  have a8 : lit "replicaSet=" ≠ lit "ssl=true" := by decide
  have a9 : lit "replicaSet=" ≠ lit "connect=direct" := by decide
  have b1 : hasPrefix (lit "retrywrites=" ++ FormatBool c.RetryWrites) (lit "ssl=") = false := by
    cases c.RetryWrites <;> decide
  have b2 : hasPrefix (lit "replicaSet=" ++ c.ReplicaSet) (lit "ssl=") = false :=
    hasPrefix_false_of_head _ _ 115 rfl (by rw [replicaSet_head]; decide)
  have b3 : hasPrefix (lit "connect=direct") (lit "ssl=") = false := by decide
  have b4 : hasPrefix (lit "ssl=true") (lit "ssl=") = true := by decide
  have d1 : hasPrefix (lit "retrywrites=" ++ FormatBool c.RetryWrites) (lit "replicaSet=")
      = false := by
    cases c.RetryWrites <;> decide
  have d2 : hasPrefix (lit "ssl=true") (lit "replicaSet=") = false := by decide
  have d3 : hasPrefix (lit "connect=direct") (lit "replicaSet=") = false := by decide
  unfold intendedParams
  cases hS : c.Ssl <;> cases hD : c.Direct <;> by_cases hR : c.ReplicaSet = [] <;>
    simp [hR, a1, a2, a3, a3.symm, a4, a5, a6, a5.symm, a6.symm, a7, a8, a9, b1, b2, b3, b4,
      d1, d2, d3]

/-- C4 (amended): when Host and Port contain no `'?'` and ReplicaSet contains
no `'&'`, the query parameters of the URI built by `MongoClient` are exactly
`retrywrites=<RetryWrites>`, then `ssl=true` iff Ssl, then
`replicaSet=<ReplicaSet>` iff ReplicaSet is non-empty and Direct is false, then
`connect=direct` iff Direct; no `ssl=` parameter exists when Ssl is false and
no `replicaSet=` parameter exists when Direct is true. -/
theorem C4_query_params (c : ClientConfig)
    (hh : (63 : Byte) ∉ c.Host) (hp : (63 : Byte) ∉ c.Port) (hr : (38 : Byte) ∉ c.ReplicaSet) :
    queryParams (mongoClientURI c) = intendedParams c ∧
    (lit "retrywrites=" ++ FormatBool c.RetryWrites ∈ queryParams (mongoClientURI c)) ∧
    (lit "ssl=true" ∈ queryParams (mongoClientURI c) ↔ c.Ssl = true) ∧
    (c.Ssl = true ∨ ∀ p ∈ queryParams (mongoClientURI c), hasPrefix p (lit "ssl=") = false) ∧
    (lit "replicaSet=" ++ c.ReplicaSet ∈ queryParams (mongoClientURI c) ↔
      (c.ReplicaSet ≠ [] ∧ c.Direct = false)) ∧
    (lit "connect=direct" ∈ queryParams (mongoClientURI c) ↔ c.Direct = true) ∧
    (c.Direct = false ∨
      ∀ p ∈ queryParams (mongoClientURI c), hasPrefix p (lit "replicaSet=") = false) := by
  rw [queryParams_mongoClientURI c hh hp hr]
  obtain ⟨h1, h2, h4, h5, h6, h7⟩ := intendedParams_facts c
  exact ⟨rfl, h1, h2, h4, h5, h6, h7⟩

/-- C4 at a configuration with replica set `rs0` and Direct set: the
parameters are `retrywrites=true` and `connect=direct` only. -/
theorem C4_query_params_witness :
    queryParams (mongoClientURI directConfig) = [lit "retrywrites=true", lit "connect=direct"] :=
  (C4_query_params directConfig (by decide) (by decide) (by decide)).1.trans (by decide)


/-! ## Admin commands -/

theorem createUser_eq (client : Client) (user : User) :
    createUser client user =
      ((client.cluster client.issued ⟨user.AuthDatabase, createUserCommand user⟩).Err,
       { client with issued := client.issued ++ [⟨user.AuthDatabase, createUserCommand user⟩] }) := by
  unfold createUser Client.RunCommand
  simp only
  split_ifs with h
  · rfl
  · simp only [ne_eq, not_not] at h
    rw [h]

theorem dropUser_eq (client : Client) (username database : GoString) :
    dropUser client username database =
      ((client.cluster client.issued ⟨database, [(lit "dropUser", .str username)]⟩).Err,
       { client with
         issued := client.issued ++ [⟨database, [(lit "dropUser", .str username)]⟩] }) := by
  unfold dropUser Client.RunCommand
  simp only
  split_ifs with h
  · rfl
  · simp only [ne_eq, not_not] at h
    rw [h]

theorem createRole_eq (client : Client) (role : Role) :
    createRole client role =
      ((client.cluster client.issued ⟨role.Database, createRoleCommand role⟩).Err,
       { client with issued := client.issued ++ [⟨role.Database, createRoleCommand role⟩] }) := by
  unfold createRole Client.RunCommand
  simp only
  split_ifs with h
  · rfl
  · simp only [ne_eq, not_not] at h
    rw [h]

theorem dropRole_eq (client : Client) (role database : GoString) :
    dropRole client role database =
      ((client.cluster client.issued ⟨database, [(lit "dropRole", .str role)]⟩).Err,
       { client with
         issued := client.issued ++ [⟨database, [(lit "dropRole", .str role)]⟩] }) := by
  unfold dropRole Client.RunCommand
  simp only
  split_ifs with h
  · rfl
  · simp only [ne_eq, not_not] at h
    rw [h]

/-- C5: the command built by `createUser` is `[createUser: Name, pwd:
Password, roles: R]` when the password is non-empty and `[createUser: Name,
roles: R]`, without any `pwd` field, when it is empty; `R` is the user's role
list in order, or the explicit empty list when there are no roles; the command
is run once, against the user's auth database. -/
theorem C5_createUser_command (client : Client) (user : User) :
    ((user.Password ≠ [] ∧
        createUserCommand user =
          [(lit "createUser", .str user.Name), (lit "pwd", .str user.Password),
           (lit "roles", if user.Roles = [] then .emptyList else .roleRefs user.Roles)]) ∨
     (user.Password = [] ∧
        createUserCommand user =
          [(lit "createUser", .str user.Name),
           (lit "roles", if user.Roles = [] then .emptyList else .roleRefs user.Roles)] ∧
        ∀ kv ∈ createUserCommand user, kv.1 ≠ lit "pwd")) ∧
    (lit "roles", if user.Roles = [] then BsonValue.emptyList else .roleRefs user.Roles)
      ∈ createUserCommand user ∧
    (createUser client user).2.issued =
      client.issued ++ [⟨user.AuthDatabase, createUserCommand user⟩] := by
  have hr : (if user.Roles.length ≠ 0 then BsonValue.roleRefs user.Roles else .emptyList)
      = (if user.Roles = [] then BsonValue.emptyList else .roleRefs user.Roles) := by
    cases user.Roles <;> simp
  have h1 : lit "createUser" ≠ lit "pwd" := by decide
  have h2 : lit "roles" ≠ lit "pwd" := by decide
  refine ⟨?_, ?_, ?_⟩
  · by_cases hp : user.Password = []
    · right
      have hc : createUserCommand user = [(lit "createUser", .str user.Name),
          (lit "roles", if user.Roles = [] then .emptyList else .roleRefs user.Roles)] := by
        simp only [createUserCommand, hp, ne_eq, not_true_eq_false, if_false, hr]
      refine ⟨hp, hc, ?_⟩
      intro kv hkv
      rw [hc] at hkv
      simp only [List.mem_cons, List.mem_singleton, List.not_mem_nil, or_false] at hkv
      rcases hkv with rfl | rfl
      · exact h1
      · exact h2
    · left
      refine ⟨hp, ?_⟩
      simp only [createUserCommand, hp, ne_eq, not_false_eq_true, if_true, hr]
  · by_cases hp : user.Password = []
    · simp only [createUserCommand, hp, ne_eq, not_true_eq_false, if_false, hr]
      simp
    · simp only [createUserCommand, hp, ne_eq, not_false_eq_true, if_true, hr]
      simp
  · rw [createUser_eq]


/-- C6: when the users-info reply decodes to an empty user list, `getUser`
returns the absent result (no user, no error); `getRole` does the same for a
roles-info reply that decodes to an empty role list. -/
theorem C6_absent_is_not_error (client : Client) (name database password : GoString) :
    ((client.RunCommand database (usersInfoCommand name database)).1.DecodeUsers = .ok ⟨[]⟩ →
      (getUser client name database password).1 = .ok none) ∧
    ((client.RunCommand database (rolesInfoCommand name database)).1.DecodeRoles = .ok ⟨[]⟩ →
      (getRole client name database).1 = .ok none) := by
  constructor
  · intro h
    unfold getUser
    simp only [h]
  · intro h
    unfold getRole
    simp only [h]

/-- C6 on a cluster that knows no principal: reading user or role `alice` of
`admin` gives the absent result. -/
theorem C6_absent_is_not_error_witness :
    (getUser emptyCluster (lit "alice") (lit "admin") (lit "pw")).1 = .ok none ∧
    (getRole emptyCluster (lit "alice") (lit "admin")).1 = .ok none :=
  ⟨(C6_absent_is_not_error emptyCluster (lit "alice") (lit "admin") (lit "pw")).1 rfl,
   (C6_absent_is_not_error emptyCluster (lit "alice") (lit "admin") (lit "pw")).2 rfl⟩

/-- C7: when the users-info reply decodes to a list whose first user is `u`,
`getUser` returns a User with the caller's password unchanged, the requested
database and username, and `u`'s role list with the same length, order and
(role, db) values. -/
theorem C7_getUser_carries_password (client : Client) (username database password : GoString)
    (u : MongodbUser) (others : List MongodbUser)
    (h : (client.RunCommand database (usersInfoCommand username database)).1.DecodeUsers
      = .ok ⟨u :: others⟩) :
    ∃ user, (getUser client username database password).1 = .ok (some user) ∧
      user.Password = password ∧ user.AuthDatabase = database ∧ user.Name = username ∧
      user.Roles.length = u.Roles.length ∧
      user.Roles.map (fun r => (r.Role, r.Db)) = u.Roles.map (fun r => (r.Role, r.Db)) := by
  refine ⟨{ AuthDatabase := database, Name := username, Password := password,
            Roles := u.Roles.map (fun r => { Role := r.Role, Db := r.Db }) }, ?_, rfl, rfl, rfl,
          ?_, ?_⟩
  · unfold getUser
    simp only [h]
  · simp
  · simp [List.map_map, Function.comp]

/-- C7 on a cluster that lists `alice` with role `readWrite` on `app`: the
password `pw` supplied by the caller comes back with that role. -/
theorem C7_getUser_carries_password_witness :
    ∃ user, (getUser aliceCluster (lit "alice") (lit "admin") (lit "pw")).1 = .ok (some user) ∧
      user.Password = lit "pw" ∧ user.AuthDatabase = lit "admin" ∧ user.Name = lit "alice" ∧
      user.Roles.length = 1 ∧
      user.Roles.map (fun r => (r.Role, r.Db)) = [(lit "readWrite", lit "app")] :=
  C7_getUser_carries_password aliceCluster (lit "alice") (lit "admin") (lit "pw")
    ⟨lit "admin.alice", lit "alice", lit "admin", [⟨lit "readWrite", lit "app"⟩]⟩
    [⟨lit "other.alice", lit "alice", lit "other", []⟩] rfl


/-! ## The reconcilers -/

theorem newCommands_append (c0 : Client) (cluster : List Issued → Issued → SingleResult)
    (added : List Issued) {connected : Bool} :
    newCommands (.ok c0)
      (some { issued := c0.issued ++ added, cluster := cluster, connected := connected })
      = added := by
  simp [newCommands]

theorem newCommands_self (c0 : Client) : newCommands (.ok c0) (some c0) = [] := by
  simp [newCommands]

/-- Before the drop, `resourceDatabaseUserUpdate` stops without issuing any
command exactly at the failure that caused it: no connection, a stored id that
does not decode, or a desired user that does not validate. -/
theorem user_update_early_failure (init : Except GoError Client) (data : UserData) :
    (∀ e, init = .error e →
      (resourceDatabaseUserUpdate init data).diags
        = diagErrorf (lit "Error connecting to database : ") e (lit " ") ∧
      newCommands init (resourceDatabaseUserUpdate init data).client = []) ∧
    (∀ client e, init = .ok client → parseUserId data.stateID = .error e →
      (resourceDatabaseUserUpdate init data).diags = diagErrorf (lit "ID mismatch ") e [] ∧
      newCommands init (resourceDatabaseUserUpdate init data).client = []) ∧
    (∀ client p e, init = .ok client → parseUserId data.stateID = .ok p →
      readUserFromData data = .error e →
      (resourceDatabaseUserUpdate init data).diags
        = diagErrorf (lit "Error reading user : ") e (lit " ") ∧
      newCommands init (resourceDatabaseUserUpdate init data).client = []) := by
  refine ⟨?_, ?_, ?_⟩
  · rintro e rfl
    simp [resourceDatabaseUserUpdate, newCommands]
  · rintro client e rfl hid
    simp [resourceDatabaseUserUpdate, hid, newCommands_self]
  · rintro client ⟨userName, database⟩ e rfl hid hu
    simp [resourceDatabaseUserUpdate, hid, hu, newCommands_self]

/-- C8: when the stored id decodes to `(userName, database)` and the desired
user is valid, the first command `resourceDatabaseUserUpdate` issues is
`dropUser: userName` against `database`, the previous identity; if that drop
reports an error the operation returns the failure carrying that error and
the drop is the only command issued (no create-user command); if it reports
none, the create-user command of the desired user is the next and last
command. -/
theorem C8_user_update_drop_first (client : Client) (data : UserData)
    (userName database : GoString) (user : User)
    (hid : parseUserId data.stateID = .ok (userName, database))
    (hu : readUserFromData data = .ok user) :
    (newCommands (.ok client) (resourceDatabaseUserUpdate (.ok client) data).client).head?
      = some ⟨database, [(lit "dropUser", .str userName)]⟩ ∧
    (∀ err,
      (client.cluster client.issued ⟨database, [(lit "dropUser", .str userName)]⟩).Err
        = some err →
      (resourceDatabaseUserUpdate (.ok client) data).diags
        = diagErrorf (lit "Could not delete the user : ") err (lit " ") ∧
      newCommands (.ok client) (resourceDatabaseUserUpdate (.ok client) data).client
        = [⟨database, [(lit "dropUser", .str userName)]⟩]) ∧
    ((client.cluster client.issued ⟨database, [(lit "dropUser", .str userName)]⟩).Err = none →
      newCommands (.ok client) (resourceDatabaseUserUpdate (.ok client) data).client
        = [⟨database, [(lit "dropUser", .str userName)]⟩,
           ⟨user.AuthDatabase, createUserCommand user⟩]) := by
  have hfail : ∀ err,
      (client.cluster client.issued ⟨database, [(lit "dropUser", .str userName)]⟩).Err
        = some err →
      (resourceDatabaseUserUpdate (.ok client) data).diags
        = diagErrorf (lit "Could not delete the user : ") err (lit " ") ∧
      newCommands (.ok client) (resourceDatabaseUserUpdate (.ok client) data).client
        = [⟨database, [(lit "dropUser", .str userName)]⟩] := by
    intro err hd
    constructor
    · simp [resourceDatabaseUserUpdate, hid, hu, dropUser_eq, hd]
    · simp only [resourceDatabaseUserUpdate, hid, hu, dropUser_eq, hd]
      exact newCommands_append client _ _
  have hok :
      (client.cluster client.issued ⟨database, [(lit "dropUser", .str userName)]⟩).Err = none →
      newCommands (.ok client) (resourceDatabaseUserUpdate (.ok client) data).client
        = [⟨database, [(lit "dropUser", .str userName)]⟩,
           ⟨user.AuthDatabase, createUserCommand user⟩] := by
    intro hd
    simp only [resourceDatabaseUserUpdate, hid, hu, dropUser_eq, hd, createUser_eq]
    cases (client.cluster (client.issued ++ [⟨database, [(lit "dropUser", .str userName)]⟩])
        ⟨user.AuthDatabase, createUserCommand user⟩).Err with
    | some err =>
      simp only [List.append_assoc]
      exact newCommands_append client _ _
    | none =>
      simp only [List.append_assoc]
      cases (writeUserToData data (some user)).1 <;>
        exact newCommands_append client _ _
  refine ⟨?_, hfail, hok⟩
  cases hd : (client.cluster client.issued
      ⟨database, [(lit "dropUser", .str userName)]⟩).Err with
  | some err => rw [(hfail err hd).2]; rfl
  | none => rw [hok hd]; rfl

/-- C8 on a cluster that rejects the drop: updating `alice` of `admin` returns
the drop error `denied` and issues the drop only. -/
theorem C8_user_update_drop_first_witness :
    (resourceDatabaseUserUpdate (.ok failingCluster) aliceData).diags
      = diagErrorf (lit "Could not delete the user : ") (.new (lit "denied")) (lit " ") ∧
    newCommands (.ok failingCluster)
        (resourceDatabaseUserUpdate (.ok failingCluster) aliceData).client
      = [⟨lit "admin", [(lit "dropUser", .str (lit "alice"))]⟩] :=
  (C8_user_update_drop_first failingCluster aliceData (lit "alice") (lit "admin")
    ⟨lit "admin", lit "alice", lit "pw", [⟨lit "readWrite", lit "app"⟩]⟩
    (by decide) (by decide)).2.1 (.new (lit "denied")) (by decide)

/-- On a cluster that rejects the drop, updating `alice` returns the drop
error and issues the drop only. -/
theorem user_update_on_failing_cluster :
    (resourceDatabaseUserUpdate (.ok failingCluster) aliceData).diags
      = diagErrorf (lit "Could not delete the user : ") (.new (lit "denied")) (lit " ") ∧
    newCommands (.ok failingCluster) (resourceDatabaseUserUpdate (.ok failingCluster) aliceData).client
      = [⟨lit "admin", [(lit "dropUser", .str (lit "alice"))]⟩] := by
  decide

/-- Whatever the stored id names, the role that `resourceDatabaseRoleUpdate`
drops is the one read from the desired data: once the id decodes and the role
is read, the first command issued is `dropRole: role.Name` against
`role.Database`. -/
theorem roleUpdate_first_command (client : Client) (data : RoleData)
    (oldName oldDatabase : GoString) (role : Role)
    (hid : parseRoleId data.stateID = .ok (oldName, oldDatabase))
    (hr : readRoleFromData data = .ok role) :
    (newCommands (.ok client) (resourceDatabaseRoleUpdate (.ok client) data).client).head?
      = some ⟨role.Database, [(lit "dropRole", .str role.Name)]⟩ := by
  simp only [resourceDatabaseRoleUpdate, hid, hr, dropRole_eq, createRole_eq]
  cases (client.cluster client.issued ⟨role.Database, [(lit "dropRole", .str role.Name)]⟩).Err with
  | some err => simp only [newCommands_append]; rfl
  | none =>
    cases (client.cluster (client.issued ++ [⟨role.Database, [(lit "dropRole", .str role.Name)]⟩])
        ⟨role.Database, createRoleCommand role⟩).Err with
    | some err => simp only [List.append_assoc, newCommands_append]; rfl
    | none =>
      cases (writeRoleToData data (some role)).1 <;>
        simp only [List.append_assoc, newCommands_append] <;> rfl


/-- C9 (the code at the failing input): the stored id names role `old` of
`admin` and the desired name is `new`; `resourceDatabaseRoleUpdate` issues
`dropRole: new`, not `dropRole: old`, before the create-role command. -/
theorem C9_role_update_drops_desired_name :
    parseRoleId renamedRoleData.stateID = .ok (lit "old", lit "admin") ∧
    newCommands (.ok emptyCluster)
        (resourceDatabaseRoleUpdate (.ok emptyCluster) renamedRoleData).client
      = [⟨lit "admin", [(lit "dropRole", .str (lit "new"))]⟩,
         ⟨lit "admin", [(lit "createRole", .str (lit "new")), (lit "privileges", .emptyList),
                        (lit "roles", .emptyList)]⟩] ∧
    (⟨lit "admin", [(lit "dropRole", .str (lit "old"))]⟩ : Issued) ∉
      newCommands (.ok emptyCluster)
        (resourceDatabaseRoleUpdate (.ok emptyCluster) renamedRoleData).client := by
  decide


/-- A user accepted by `readUserFromData` has an empty password only in
`$external`. -/
theorem readUserFromData_password (data : UserData) (user : User)
    (h : readUserFromData data = .ok user) :
    user.Password = [] → user.AuthDatabase = lit "$external" := by
  unfold readUserFromData at h
  cases hr : data.role with
  | error e => simp [hr] at h
  | ok roles =>
    simp only [hr] at h
    split_ifs at h with hc
    · cases h
      intro hp
      by_contra hne
      exact hc ⟨hp, hne⟩

/-- The commands a run of `resourceDatabaseUserCreate` issues: none, or the
create-user command of the user read from the data. -/
theorem userCreate_commands (init : Except GoError Client) (data : UserData) :
    newCommands init (resourceDatabaseUserCreate init data).client = [] ∨
    ∃ user, readUserFromData data = .ok user ∧
      newCommands init (resourceDatabaseUserCreate init data).client
        = [⟨user.AuthDatabase, createUserCommand user⟩] := by
  cases init with
  | error e => left; simp [resourceDatabaseUserCreate, newCommands]
  | ok client =>
    cases hu : readUserFromData data with
    | error e => left; simp [resourceDatabaseUserCreate, hu, newCommands_self]
    | ok user =>
      right
      refine ⟨user, rfl, ?_⟩
      simp only [resourceDatabaseUserCreate, hu, createUser_eq]
      cases (client.cluster client.issued ⟨user.AuthDatabase, createUserCommand user⟩).Err with
      | some err => exact newCommands_append client _ _
      | none =>
        cases (writeUserToData data (some user)).1 <;> exact newCommands_append client _ _

/-- The commands a run of `resourceDatabaseUserUpdate` issues: none, or a
drop-user command alone, or a drop-user command followed by the create-user
command of the user read from the data. -/
theorem userUpdate_commands (init : Except GoError Client) (data : UserData) :
    newCommands init (resourceDatabaseUserUpdate init data).client = [] ∨
    ∃ userName database user, readUserFromData data = .ok user ∧
      (newCommands init (resourceDatabaseUserUpdate init data).client
          = [⟨database, [(lit "dropUser", .str userName)]⟩] ∨
       newCommands init (resourceDatabaseUserUpdate init data).client
          = [⟨database, [(lit "dropUser", .str userName)]⟩,
             ⟨user.AuthDatabase, createUserCommand user⟩]) := by
  cases init with
  | error e => left; simp [resourceDatabaseUserUpdate, newCommands]
  | ok client =>
    cases hid : parseUserId data.stateID with
    | error e => left; simp [resourceDatabaseUserUpdate, hid, newCommands_self]
    | ok p =>
      obtain ⟨userName, database⟩ := p
      cases hu : readUserFromData data with
      | error e => left; simp [resourceDatabaseUserUpdate, hid, hu, newCommands_self]
      | ok user =>
        right
        refine ⟨userName, database, user, rfl, ?_⟩
        simp only [resourceDatabaseUserUpdate, hid, hu, dropUser_eq, createUser_eq]
        cases (client.cluster client.issued
            ⟨database, [(lit "dropUser", .str userName)]⟩).Err with
        | some err => left; exact newCommands_append client _ _
        | none =>
          right
          cases (client.cluster (client.issued ++ [⟨database, [(lit "dropUser", .str userName)]⟩])
              ⟨user.AuthDatabase, createUserCommand user⟩).Err with
          | some err =>
            simp only [List.append_assoc]
            exact newCommands_append client _ _
          | none =>
            simp only [List.append_assoc]
            cases (writeUserToData data (some user)).1 <;>
              exact newCommands_append client _ _

/-- C10: when the role list decodes, `readUserFromData` fails exactly when
the password is empty and the auth database is not `$external`, and otherwise
returns the User with the given auth database, name, password and roles; every
User it returns has an empty password only in `$external`, and the create-user
commands issued by the create and update operations are built from such a
User. -/
theorem C10_password_validation (data : UserData) (roles : List RoleReference)
    (hroles : data.role = .ok roles) :
    ((∃ e, readUserFromData data = .error e) ↔
      (data.password = [] ∧ data.auth_database ≠ lit "$external")) ∧
    (¬ (data.password = [] ∧ data.auth_database ≠ lit "$external") →
      readUserFromData data = .ok { AuthDatabase := data.auth_database, Name := data.name,
                                    Password := data.password, Roles := roles }) ∧
    (∀ user, readUserFromData data = .ok user →
      user.Password = [] → user.AuthDatabase = lit "$external") ∧
    (∀ init, ∀ iss ∈ newCommands init (resourceDatabaseUserCreate init data).client,
      ∃ user, readUserFromData data = .ok user ∧
        iss = ⟨user.AuthDatabase, createUserCommand user⟩ ∧
        (user.Password = [] → user.AuthDatabase = lit "$external")) ∧
    (∀ init, ∀ iss ∈ newCommands init (resourceDatabaseUserUpdate init data).client,
      iss.command.head?.map Prod.fst = some (lit "createUser") →
      ∃ user, readUserFromData data = .ok user ∧
        iss = ⟨user.AuthDatabase, createUserCommand user⟩ ∧
        (user.Password = [] → user.AuthDatabase = lit "$external")) := by
  have hkey : lit "dropUser" ≠ lit "createUser" := by decide
  refine ⟨?_, ?_, readUserFromData_password data, ?_, ?_⟩
  · unfold readUserFromData
    simp only [hroles]
    split_ifs with hc
    · exact ⟨fun _ => hc, fun _ => ⟨_, rfl⟩⟩
    · constructor
      · rintro ⟨e, h⟩; cases h
      · intro h; exact absurd h hc
  · intro hc
    unfold readUserFromData
    simp only [hroles, hc, if_false]
  · intro init iss hiss
    rcases userCreate_commands init data with h | ⟨user, hu, h⟩
    · rw [h] at hiss; cases hiss
    · rw [h, List.mem_singleton] at hiss
      exact ⟨user, hu, hiss, readUserFromData_password data user hu⟩
  · intro init iss hiss hhead
    rcases userUpdate_commands init data with h | ⟨userName, database, user, hu, h | h⟩
    · rw [h] at hiss; cases hiss
    · rw [h, List.mem_singleton] at hiss
      subst hiss
      simp only [List.head?_cons, Option.map_some', Option.some.injEq] at hhead
      exact absurd hhead hkey
    · rw [h] at hiss
      simp only [List.mem_cons, List.mem_singleton, List.not_mem_nil, or_false] at hiss
      rcases hiss with rfl | rfl
      · simp only [List.head?_cons, Option.map_some', Option.some.injEq] at hhead
        exact absurd hhead hkey
      · exact ⟨user, hu, rfl, readUserFromData_password data user hu⟩

/-- C10 at a certificate user of `$external` without password: it is accepted
as it is. -/
theorem C10_password_validation_witness :
    readUserFromData externalData
      = .ok { AuthDatabase := lit "$external", Name := lit "CN=client", Password := [],
              Roles := [] } :=
  (C10_password_validation externalData [] rfl).2.1 (by decide)


/-! ## TLS material -/

/-- C11 (as stated, refuted): with `InsecureSkipVerify = true` and neither a
CA certificate nor a client certificate, `getTlsConfig` succeeds with no TLS
material at all, so the flag is not in the result. -/
theorem C11_skip_verify_dropped_without_certificate :
    skipVerifyConfig.InsecureSkipVerify = true ∧
    getTlsConfig workingDriver skipVerifyConfig = .ok none := by
  decide

theorem getTlsConfig_flag (env : Driver) (c : ClientConfig) (cfg : TlsConfig)
    (h : getTlsConfig env c = .ok (some cfg)) :
    cfg.InsecureSkipVerify = c.InsecureSkipVerify := by
  unfold getTlsConfig at h
  simp only at h
  split_ifs at h
  all_goals try simp only at h
  all_goals first
    | (cases h <;> rfl)
    | (split at h <;> (cases h <;> rfl))

theorem getTlsConfig_none_iff (env : Driver) (c : ClientConfig) :
    getTlsConfig env c = .ok none ↔ (c.Certificate = [] ∧ c.AuthX509Cert = []) := by
  constructor
  · intro h
    by_contra hne
    have hany : c.Certificate ≠ [] ∨ c.AuthX509Cert ≠ [] := by
      by_cases h1 : c.Certificate = []
      · exact Or.inr (fun h2 => hne ⟨h1, h2⟩)
      · exact Or.inl h1
    unfold getTlsConfig at h
    rw [if_pos hany] at h
    simp only at h
    split_ifs at h
    all_goals try simp only at h
    all_goals first
      | cases h
      | (split at h <;> cases h)
  · rintro ⟨h1, h2⟩
    simp [getTlsConfig, h1, h2]

theorem getTlsConfig_some_of_inputs (env : Driver) (c : ClientConfig) (cert : Certificate)
    (hany : c.Certificate ≠ [] ∨ c.AuthX509Cert ≠ [])
    (hroot : c.Certificate = [] ∨ env.appendCertsFromPEM c.Certificate = true)
    (hpair : c.AuthX509Cert = [] ∨
      env.loadX509KeyPair c.AuthX509Cert
        (if c.AuthX509Key ≠ [] then c.AuthX509Key else c.AuthX509Cert) = .ok cert) :
    ∃ cfg, getTlsConfig env c = .ok (some cfg) := by
  unfold getTlsConfig
  rw [if_pos hany]
  simp only
  by_cases hc : c.Certificate = [] <;> by_cases hx : c.AuthX509Cert = []
  · rcases hany with h | h
    · exact absurd hc h
    · exact absurd hx h
  · have hl := hpair.resolve_left hx
    simp only [hc, hx, ne_eq, not_true_eq_false, not_false_eq_true, if_true, if_false, hl]
    exact ⟨_, rfl⟩
  · have ha := hroot.resolve_left hc
    simp only [hc, hx, ne_eq, not_true_eq_false, not_false_eq_true, if_true, if_false, ha]
    exact ⟨_, rfl⟩
  · have ha := hroot.resolve_left hc
    have hl := hpair.resolve_left hx
    simp only [hc, hx, ne_eq, not_false_eq_true, if_true, ha, not_true_eq_false, if_false, hl]
    exact ⟨_, rfl⟩

/-- C11 (amended): for every configuration, whenever `getTlsConfig` succeeds
with TLS material, a CA certificate or a client certificate was supplied and
the skip-verify setting of the material equals `c.InsecureSkipVerify`; it
succeeds with no TLS material at all exactly when neither was supplied,
whatever the flag; and it does succeed with material when one is supplied, the
CA text (if any) parses and the client key pair (if any) loads. -/
theorem C11_skip_verify_passthrough (env : Driver) (c : ClientConfig) :
    (∀ cfg, getTlsConfig env c = .ok (some cfg) →
      cfg.InsecureSkipVerify = c.InsecureSkipVerify ∧
      (c.Certificate ≠ [] ∨ c.AuthX509Cert ≠ [])) ∧
    (getTlsConfig env c = .ok none ↔ (c.Certificate = [] ∧ c.AuthX509Cert = [])) ∧
    (∀ cert, (c.Certificate ≠ [] ∨ c.AuthX509Cert ≠ []) →
      (c.Certificate = [] ∨ env.appendCertsFromPEM c.Certificate = true) →
      (c.AuthX509Cert = [] ∨
        env.loadX509KeyPair c.AuthX509Cert
          (if c.AuthX509Key ≠ [] then c.AuthX509Key else c.AuthX509Cert) = .ok cert) →
      ∃ cfg, getTlsConfig env c = .ok (some cfg) ∧
        cfg.InsecureSkipVerify = c.InsecureSkipVerify) := by
  refine ⟨?_, getTlsConfig_none_iff env c, ?_⟩
  · intro cfg h
    refine ⟨getTlsConfig_flag env c cfg h, ?_⟩
    by_contra hno
    have hnone : getTlsConfig env c = .ok none := by
      rw [getTlsConfig_none_iff]
      constructor
      · by_contra h1; exact hno (Or.inl h1)
      · by_contra h2; exact hno (Or.inr h2)
    rw [hnone] at h
    cases h
  · intro cert hany hroot hpair
    obtain ⟨cfg, hcfg⟩ := getTlsConfig_some_of_inputs env c cert hany hroot hpair
    exact ⟨cfg, hcfg, getTlsConfig_flag env c cfg hcfg⟩

/-- C11 (amended) at a configuration with skip-verify set and the client
certificate file `/etc/ssl/client.pem`: the material returned carries the
flag. -/
theorem C11_skip_verify_passthrough_witness :
    getTlsConfig workingDriver skipVerifyWithClientCert
      = .ok (some ⟨true, none,
          some ⟨lit "/etc/ssl/client.pem", lit "/etc/ssl/client.pem"⟩⟩) ∧
    (⟨true, none, some ⟨lit "/etc/ssl/client.pem", lit "/etc/ssl/client.pem"⟩⟩
        : TlsConfig).InsecureSkipVerify = skipVerifyWithClientCert.InsecureSkipVerify :=
  ⟨by decide,
   ((C11_skip_verify_passthrough workingDriver skipVerifyWithClientCert).1
    ⟨true, none, some ⟨lit "/etc/ssl/client.pem", lit "/etc/ssl/client.pem"⟩⟩
    (by decide)).1⟩

/-- A CA text that is no certificate makes `getTlsConfig` fail, whatever the
flag. -/
theorem getTlsConfig_rejects_bad_pem :
    getTlsConfig workingDriver skipVerifyWithCA
      = .error (.new (lit "Failed parsing pem file")) := by
  decide

/-! ## Role privileges -/

theorem privileges_back (privs : List Privilege) :
    (privs.map (fun element : Privilege =>
        ({ Resource := { Db := element.Db, Collection := element.Collection },
           Actions := element.Actions } : MongodbPrivilege))).map
      (fun p : MongodbPrivilege =>
        ({ Collection := p.Resource.Collection, Db := p.Resource.Db, Actions := p.Actions }
          : Privilege)) = privs := by
  induction privs with
  | nil => rfl
  | cons p rest ih => simp only [List.map_cons, ih]

/-- C12: `createRole` sends the role's privileges as the list
`privilegesData role` of `{resource: {db, collection}, actions}` entries (an
explicit empty list when there is none); when the roles-info reply carries
that same list for its first role, `getRole` returns a privilege list equal to
the original, and an empty inherited-role list when the reply has no inherited
roles. -/
theorem C12_privilege_roundtrip (client : Client) (roleName database : GoString) (role : Role)
    (reply : MongodbRole) (others : List MongodbRole)
    (h : (client.RunCommand database (rolesInfoCommand roleName database)).1.DecodeRoles
      = .ok ⟨reply :: others⟩)
    (hp : reply.Privileges = privilegesData role) :
    (lit "privileges",
        if role.Privileges = [] then BsonValue.emptyList
        else .privileges (privilegesData role)) ∈ createRoleCommand role ∧
    (privilegesData role).length = role.Privileges.length ∧
    ∃ r, (getRole client roleName database).1 = .ok (some r) ∧
      r.Privileges = role.Privileges ∧
      (reply.InheritedRoles = [] → r.Roles = []) := by
  refine ⟨?_, by simp [privilegesData], ?_⟩
  · have hv : (if (privilegesData role).length ≠ 0 then BsonValue.privileges (privilegesData role)
        else .emptyList)
        = (if role.Privileges = [] then BsonValue.emptyList
           else .privileges (privilegesData role)) := by
      cases hpr : role.Privileges <;> simp [privilegesData, hpr]
    simp only [createRoleCommand, hv]
    simp
  · refine ⟨{ Name := reply.Role, Database := reply.Db,
              Roles := reply.InheritedRoles.map (fun r => { Role := r.Role, Db := r.Db }),
              Privileges := reply.Privileges.map (fun p =>
                { Collection := p.Resource.Collection, Db := p.Resource.Db,
                  Actions := p.Actions }) }, ?_, ?_, ?_⟩
    · unfold getRole
      simp only [h]
    · simp only [hp, privilegesData]
      exact privileges_back role.Privileges
    · intro hi
      simp only [hi, List.map_nil]

/-- C12 for role `reporter` of `app` with `find` on `app.orders`: reading it
back gives the same privilege and no inherited role. -/
theorem C12_privilege_roundtrip_witness :
    ∃ r, (getRole reporterCluster (lit "reporter") (lit "app")).1 = .ok (some r) ∧
      r.Privileges = [⟨lit "app", lit "orders", [lit "find"]⟩] ∧ r.Roles = [] := by
  obtain ⟨_, _, r, h1, h2, h3⟩ :=
    C12_privilege_roundtrip reporterCluster (lit "reporter") (lit "app") reporterRole
      ⟨lit "reporter", lit "app", [], privilegesData reporterRole⟩ [] rfl rfl
  exact ⟨r, h1, h2, h3 rfl⟩

/-! ## Connection lifecycle -/

/-- Function `MongoClientInit` never disconnects. -/
theorem MongoClientInit_no_disconnect (env : Driver) (conf : MongoDatabaseConfiguration) :
    DriverCall.disconnect ∉ (MongoClientInit env conf).2 := by
  unfold MongoClientInit
  cases MongoClient env conf.Config with
  | error e => simp
  | ok opts =>
    cases env.connect with
    | some e => simp [Client.Connect]
    | none => cases env.ping <;> simp [Client.Connect]

/-- After `MongoClientInit` the connection is open exactly when the client
could be built and `Connect` succeeded, whether or not `Ping` did. -/
theorem MongoClientInit_open_iff (env : Driver) (conf : MongoDatabaseConfiguration) :
    connectionOpen (MongoClientInit env conf).2 = true ↔
      ((∃ opts, MongoClient env conf.Config = .ok opts) ∧ env.connect = none) := by
  unfold MongoClientInit
  cases MongoClient env conf.Config with
  | error e => simp [connectionOpen]
  | ok opts =>
    cases env.connect with
    | some e => simp [connectionOpen, Client.Connect]
    | none => cases env.ping <;> simp [connectionOpen, Client.Connect]

/-- A client returned by `MongoClientInit` is connected and has issued no
command yet. -/
theorem MongoClientInit_ok_connected (env : Driver) (conf : MongoDatabaseConfiguration)
    (client : Client) (h : (MongoClientInit env conf).1 = .ok client) :
    client.connected = true ∧ client.issued = [] ∧
      connectionOpen (MongoClientInit env conf).2 = true := by
  unfold MongoClientInit at h ⊢
  cases hm : MongoClient env conf.Config with
  | error e => simp [hm] at h
  | ok opts =>
    cases hc : env.connect with
    | some e => simp [hm, hc, Client.Connect] at h
    | none =>
      cases hp : env.ping with
      | some e => simp [hm, hc, hp, Client.Connect] at h
      | none =>
        simp only [hm, hc, hp, Client.Connect, Except.ok.injEq] at h
        subst h
        simp [connectionOpen, Client.Connect]

theorem getUser_client (client : Client) (username database password : GoString) :
    (getUser client username database password).2 =
      { client with issued := client.issued ++ [⟨database, usersInfoCommand username database⟩] } := by
  unfold getUser Client.RunCommand
  simp only
  split
  · rfl
  · split <;> rfl

theorem getRole_client (client : Client) (roleName database : GoString) :
    (getRole client roleName database).2 =
      { client with issued := client.issued ++ [⟨database, rolesInfoCommand roleName database⟩] } := by
  unfold getRole Client.RunCommand
  simp only
  split
  · rfl
  · split <;> rfl

theorem userCreate_connected (client : Client) (data : UserData) :
    (resourceDatabaseUserCreate (.ok client) data).client.map Client.connected
      = some client.connected := by
  unfold resourceDatabaseUserCreate
  simp only [createUser_eq]
  repeat' split
  all_goals rfl

theorem userUpdate_connected (client : Client) (data : UserData) :
    (resourceDatabaseUserUpdate (.ok client) data).client.map Client.connected
      = some client.connected := by
  unfold resourceDatabaseUserUpdate
  simp only [dropUser_eq, createUser_eq]
  repeat' split
  all_goals rfl

theorem userDelete_connected (client : Client) (data : UserData) :
    (resourceDatabaseUserDelete (.ok client) data).client.map Client.connected
      = some client.connected := by
  unfold resourceDatabaseUserDelete
  simp only [dropUser_eq]
  repeat' split
  all_goals rfl

theorem userRead_connected (client : Client) (data : UserData) :
    (resourceDatabaseUserRead (.ok client) data).client.map Client.connected
      = some client.connected := by
  unfold resourceDatabaseUserRead
  simp only
  split
  · rfl
  · rename_i userName database _
    have hc := getUser_client client userName database data.password
    cases hg : getUser client userName database data.password with
    | mk result client2 =>
      rw [hg] at hc
      simp only at hc
      subst hc
      simp only
      repeat' split
      all_goals rfl

theorem roleCreate_connected (client : Client) (data : RoleData) :
    (resourceDatabaseRoleCreate (.ok client) data).client.map Client.connected
      = some client.connected := by
  unfold resourceDatabaseRoleCreate
  simp only [createRole_eq]
  repeat' split
  all_goals rfl

theorem roleUpdate_connected (client : Client) (data : RoleData) :
    (resourceDatabaseRoleUpdate (.ok client) data).client.map Client.connected
      = some client.connected := by
  unfold resourceDatabaseRoleUpdate
  simp only [dropRole_eq, createRole_eq]
  repeat' split
  all_goals rfl

theorem roleDelete_connected (client : Client) (data : RoleData) :
    (resourceDatabaseRoleDelete (.ok client) data).client.map Client.connected
      = some client.connected := by
  unfold resourceDatabaseRoleDelete
  simp only [dropRole_eq]
  repeat' split
  all_goals rfl

theorem roleRead_connected (client : Client) (data : RoleData) :
    (resourceDatabaseRoleRead (.ok client) data).client.map Client.connected
      = some client.connected := by
  unfold resourceDatabaseRoleRead
  simp only
  split
  · rfl
  · rename_i roleName database _
    have hc := getRole_client client roleName database
    cases hg : getRole client roleName database with
    | mk result client2 =>
      rw [hg] at hc
      simp only at hc
      subst hc
      simp only
      repeat' split
      all_goals rfl

/-- Had an operation called `Disconnect` on its client before returning, the
client would be closed. -/
theorem Disconnect_closes (client : Client) : client.Disconnect.connected = false := rfl

/-- C13 (as stated, refuted): creating user `alice` on a working deployment
succeeds, issuing the create-user command on the client that
`MongoClientInit` connected, and that client's connection is open when the
operation returns. -/
theorem C13_create_returns_with_open_connection :
    (resourceDatabaseUserCreate (MongoClientInit workingDriver workingConfiguration).1
        aliceData).diags = none ∧
    (resourceDatabaseUserCreate (MongoClientInit workingDriver workingConfiguration).1
        aliceData).client.map Client.issued
      = some [⟨lit "admin",
           [(lit "createUser", .str (lit "alice")), (lit "pwd", .str (lit "pw")),
            (lit "roles", .roleRefs [⟨lit "readWrite", lit "app"⟩])]⟩] ∧
    (resourceDatabaseUserCreate (MongoClientInit workingDriver workingConfiguration).1
        aliceData).client.map Client.connected = some true := by
  decide

/-- C13 (amended): `MongoClientInit` makes no disconnect call, leaves the
connection open exactly when the client could be built and `Connect`
succeeded, and returns a client only with its connection open; each of the
eight reconcile operations (create, read, update, delete for users and for
roles) that is given a client returns with that client, on every exit path,
in the connection state it received it in, so a connection opened by
`MongoClientInit` is still open at return; and an operation whose
`MongoClientInit` failed returns without a client. -/
theorem C13_no_operation_disconnects (env : Driver) (conf : MongoDatabaseConfiguration)
    (user : UserData) (role : RoleData) :
    DriverCall.disconnect ∉ (MongoClientInit env conf).2 ∧
    (connectionOpen (MongoClientInit env conf).2 = true ↔
      ((∃ opts, MongoClient env conf.Config = .ok opts) ∧ env.connect = none)) ∧
    (∀ client, (MongoClientInit env conf).1 = .ok client →
      client.connected = true ∧
      ∀ final ∈ reconcileClients (MongoClientInit env conf).1 user role,
        final.map Client.connected = some true) ∧
    (∀ client : Client, ∀ final ∈ reconcileClients (.ok client) user role,
      final.map Client.connected = some client.connected) ∧
    (∀ e, ∀ final ∈ reconcileClients (.error e) user role, final = none) := by
  have hops : ∀ client : Client, ∀ final ∈ reconcileClients (.ok client) user role,
      final.map Client.connected = some client.connected := by
    intro client final hfinal
    simp only [reconcileClients, List.mem_cons, List.mem_singleton, List.not_mem_nil,
      or_false] at hfinal
    rcases hfinal with h | h | h | h | h | h | h | h <;> subst h
    · exact userCreate_connected client user
    · exact userRead_connected client user
    · exact userUpdate_connected client user
    · exact userDelete_connected client user
    · exact roleCreate_connected client role
    · exact roleRead_connected client role
    · exact roleUpdate_connected client role
    · exact roleDelete_connected client role
  refine ⟨MongoClientInit_no_disconnect env conf, MongoClientInit_open_iff env conf, ?_, hops, ?_⟩
  · intro client hc
    have hconn := (MongoClientInit_ok_connected env conf client hc).1
    refine ⟨hconn, ?_⟩
    intro final hfinal
    rw [hc] at hfinal
    rw [hops client final hfinal, hconn]
  · intro e final hfinal
    simp only [reconcileClients, List.mem_cons, List.mem_singleton, List.not_mem_nil,
      or_false] at hfinal
    rcases hfinal with h | h | h | h | h | h | h | h <;> subst h <;> rfl

/-- C13 (amended) for deleting role `admin.old` on a working deployment: the
client that `MongoClientInit` returned is connected, and the operation returns
with it still connected. -/
theorem C13_no_operation_disconnects_witness :
    (resourceDatabaseRoleDelete (MongoClientInit workingDriver workingConfiguration).1
        renamedRoleData).client.map Client.connected = some true :=
  ((C13_no_operation_disconnects workingDriver workingConfiguration aliceData
      renamedRoleData).2.2.1 _ rfl).2 _ (by simp [reconcileClients])

end Mongodb
